import Mathlib

/-!
# Verification of the focus.lang compiler and virtual machine

A shallow embedding of the focus.lang implementation (`src/value.rs`,
`src/op.rs`, `src/state.rs`, `src/compiler.rs`, `src/vm.rs`) together with
proofs settling the frozen claims about it.

Modelling conventions:

* Rust `i64` is modelled as `Int` (no claim under scrutiny exercises i64
  overflow); `u8`/`usize` payloads are modelled as `Nat`, with explicit
  `% 2 ^ 64` / `% 256` casts where the source performs an `as` conversion
  whose wrapping behaviour is observable.
* Rust `f64` is modelled by `F64`: exact rationals plus the IEEE special
  values `inf`, `negInf`, `nan`.  Rounding of arithmetic results and the
  sign of zero are not modelled; no claim depends on them.
* `Rc<RefCell<…>>` shared mutable containers (tables, arrays, upvalue
  cells, closures) live in an explicit `Heap`; a `Value` holds the heap
  index, which plays the role of the `Rc` pointer (pointer equality of two
  `Rc`s is equality of indices).
* Rust `panic!`, `todo!`, `unreachable!`, failing `unwrap`s and failing
  slice indexing are modelled by the `VmErr.panicked` outcome, which is
  distinct from `VmErr.runtime` (the `RuntimeError` enum of `src/vm.rs`
  that the interpreter propagates as a recoverable `Err`). Panic message
  strings are kept short but recognisable.
* The dispatch loop `Vm::run` is a fuel-indexed interpreter; exhausted
  fuel is the `VmErr.outOfFuel` outcome (a modelling artefact standing for
  a computation that has not yet finished, never for a result).
* Native (host) functions are external collaborators of the core; invoking
  one is modelled by the `VmErr.unmodeledNative` outcome.  No claim
  exercises a native call.
-/

namespace FocusLang

/-! ## A model of `f64` -/

/-- Model of Rust `f64`: exact rationals plus IEEE special values.
Rounding and signed zero are not modelled. -/
inductive F64 where
  | finite (q : ℚ)
  | inf
  | negInf
  | nan
deriving DecidableEq, Repr

namespace F64

/-- Rust `f64` `==` (IEEE): `NaN` is not equal to anything, the
infinities are equal to themselves, finite values compare exactly. -/
def rustEq : F64 → F64 → Bool
  | .finite a, .finite b => a == b
  | .inf, .inf => true
  | .negInf, .negInf => true
  | _, _ => false

/-- Rust `f64::partial_cmp` (IEEE): `none` iff either side is `NaN`,
otherwise the total order `-inf < finite < inf`. -/
def cmp : F64 → F64 → Option Ordering
  | .nan, _ => none
  | _, .nan => none
  | .finite a, .finite b => some (compare a b)
  | .negInf, .negInf => some .eq
  | .negInf, _ => some .lt
  | _, .negInf => some .gt
  | .inf, .inf => some .eq
  | .finite _, .inf => some .lt
  | .inf, .finite _ => some .gt

/-- Conversion `i64 as f64`.  Exact in the model (real `f64` rounds
integers of magnitude above `2^53`; the claims only compare an integer
with a float of equal numeric value, where the conversion is exact). -/
def ofInt (i : Int) : F64 := .finite (i : ℚ)

/-- IEEE addition on the model (exact on finite values). -/
def add : F64 → F64 → F64
  | .nan, _ => .nan
  | _, .nan => .nan
  | .inf, .negInf => .nan
  | .negInf, .inf => .nan
  | .inf, _ => .inf
  | _, .inf => .inf
  | .negInf, _ => .negInf
  | _, .negInf => .negInf
  | .finite a, .finite b => .finite (a + b)

/-- IEEE subtraction on the model. -/
def sub (a b : F64) : F64 := add a (neg b)
where
  neg : F64 → F64
    | .finite q => .finite (-q)
    | .inf => .negInf
    | .negInf => .inf
    | .nan => .nan

/-- IEEE negation on the model. -/
def neg : F64 → F64
  | .finite q => .finite (-q)
  | .inf => .negInf
  | .negInf => .inf
  | .nan => .nan

/-- IEEE multiplication on the model (sign of zero collapsed). -/
def mul : F64 → F64 → F64
  | .nan, _ => .nan
  | _, .nan => .nan
  | .inf, .inf => .inf
  | .inf, .negInf => .negInf
  | .negInf, .inf => .negInf
  | .negInf, .negInf => .inf
  | .inf, .finite q => if q = 0 then .nan else if 0 < q then .inf else .negInf
  | .finite q, .inf => if q = 0 then .nan else if 0 < q then .inf else .negInf
  | .negInf, .finite q => if q = 0 then .nan else if 0 < q then .negInf else .inf
  | .finite q, .negInf => if q = 0 then .nan else if 0 < q then .negInf else .inf
  | .finite a, .finite b => .finite (a * b)

/-- IEEE division on the model: finite / 0 gives `±inf` (or `NaN` for
`0 / 0`), `inf / inf` gives `NaN`, finite / `±inf` gives 0. -/
def div : F64 → F64 → F64
  | .nan, _ => .nan
  | _, .nan => .nan
  | .inf, .inf => .nan
  | .inf, .negInf => .nan
  | .negInf, .inf => .nan
  | .negInf, .negInf => .nan
  | .inf, .finite q => if 0 ≤ q then .inf else .negInf
  | .negInf, .finite q => if 0 ≤ q then .negInf else .inf
  | .finite _, .inf => .finite 0
  | .finite _, .negInf => .finite 0
  | .finite a, .finite b =>
    if b = 0 then
      if a = 0 then .nan else if 0 < a then .inf else .negInf
    else .finite (a / b)

/-- Truncation of a rational toward zero. -/
def truncQ (q : ℚ) : Int := if 0 ≤ q then q.floor else q.ceil

/-- IEEE remainder as computed by Rust `%` on `f64` (sign of the
dividend; `x % 0` is `NaN`). -/
def fmod : F64 → F64 → F64
  | .nan, _ => .nan
  | _, .nan => .nan
  | .inf, _ => .nan
  | .negInf, _ => .nan
  | .finite a, .inf => .finite a
  | .finite a, .negInf => .finite a
  | .finite a, .finite b =>
    if b = 0 then .nan else .finite (a - b * (truncQ (a / b) : ℚ))

/-- Rust `f64 as i64`: saturating truncation toward zero, `NaN` to 0. -/
def toI64 : F64 → Int
  | .nan => 0
  | .inf => 2 ^ 63 - 1
  | .negInf => -(2 ^ 63)
  | .finite q =>
    let t := truncQ q
    if t < -(2 ^ 63) then -(2 ^ 63)
    else if t > 2 ^ 63 - 1 then 2 ^ 63 - 1
    else t

end F64

/-! ## Values (`src/value.rs`) -/

/-- The `Value` enum of `src/value.rs`.  Shared containers carry the heap
index of the `Rc` allocation; `module` carries the module-loader index of
the `Rc<Module>` (the loader owns every module allocation). -/
inductive Value where
  | unit
  | bool (b : Bool)
  | integer (i : Int)
  | number (x : F64)
  | str (s : String)
  | table (id : Nat)
  | array (id : Nat)
  | closure (id : Nat)
  | module (id : Nat)
  | userData (id : Nat)
deriving DecidableEq, Repr

/-- `Value::is_false` (`src/value.rs`): unit, `false` and integer 0 are
falsy. -/
def Value.isFalse : Value → Bool
  | .unit => true
  | .bool false => true
  | .integer 0 => true
  | _ => false

/-- The runtime `Upvalue` cell of `src/value.rs`: `Open` forwards to a
stack slot, `Closed` owns the value. -/
inductive Upvalue where
  | open_ (slot : Nat)
  | closed (value : Value)
deriving DecidableEq, Repr

/-- The compile-time upvalue descriptor of `src/state.rs`
(`{index, is_local}`). -/
structure UpvalueDesc where
  index : Nat
  isLocal : Bool
deriving DecidableEq, Repr

/-! ## Opcodes (`src/op.rs`)

The checked-in `src/op.rs` lags the rest of the sources: `src/vm.rs`
additionally matches `GetModule`, `CmpNEq` and a payload-carrying
`CloseUpvalue`, and `src/compiler.rs` additionally emits `ExtraArg` and
`Concat`.  The model's enum is the union of every opcode the compiler
emits and the VM dispatches; `extraArg` and `concat` have no arm in the
checked-in `Vm::run`, which the interpreter model reflects by panicking
on them. -/

inductive OpCode where
  | loadConst (idx : Nat)
  | loadUnit
  | loadTrue
  | loadFalse
  | loadInt (n : Nat)
  | getLocal (slot : Nat)
  | getUpvalue (idx : Nat)
  | getModule (idx : Nat)
  | getTable
  | setLocal (slot : Nat)
  | setUpvalue (idx : Nat)
  | setTable
  | createList (size : Nat)
  | createTable (size : Nat)
  | closure (idx : Nat)
  | add
  | subtract
  | divide
  | idivide
  | multiply
  | modulus
  | negate
  | not
  | cmpEq
  | cmpNEq
  | cmpLess
  | cmpGreater
  | cmpLEq
  | cmpGEq
  | cmpAnd
  | cmpOr
  | jumpIfFalse (location : Nat)
  | jump (location : Nat)
  | call (numArgs : Nat)
  | closeUpvalue (idx : Nat)
  | pop
  | ret
  | extraArg (arg : Nat)
  | concat
deriving DecidableEq, Repr

/-! ## Prototypes (`src/state.rs`) -/

/-- The `Prototype` compilation unit of `src/state.rs`: opcodes, constant
pool, argument count, upvalue descriptors and nested child prototypes.
Debug information (line numbers, local names, ident, anonymity flag) does
not influence execution and is omitted. -/
inductive Prototype where
  | mk
    (code : List OpCode)
    (constants : List Value)
    (numArgs : Nat)
    (upvalues : List UpvalueDesc)
    (prototypes : List Prototype)

/-- Opcode list of a prototype. -/
def Prototype.code : Prototype → List OpCode
  | .mk c _ _ _ _ => c

/-- Constant pool of a prototype. -/
def Prototype.constants : Prototype → List Value
  | .mk _ k _ _ _ => k

/-- Declared argument count of a prototype. -/
def Prototype.numArgs : Prototype → Nat
  | .mk _ _ n _ _ => n

/-- Upvalue descriptors of a prototype. -/
def Prototype.upvalues : Prototype → List UpvalueDesc
  | .mk _ _ _ u _ => u

/-- Nested child prototypes. -/
def Prototype.prototypes : Prototype → List Prototype
  | .mk _ _ _ _ p => p

/-! ## Closures and modules -/

/-- The `Function` enum of `src/value.rs`: a prototype (with the identity
of its `Rc` allocation, used by pointer equality in `src/state.rs`) or a
native host function (identified by ident and function pointer). -/
inductive Function where
  | prototype (ptrId : Nat) (proto : Prototype)
  | native (ident : String) (fnPtr : Nat)

/-- `Function::prototype` accessor (`src/value.rs`). -/
def Function.prototype? : Function → Option Prototype
  | .prototype _ p => some p
  | .native _ _ => none

/-- The runtime `Closure` of `src/value.rs`: a function plus captured
upvalue cells (heap indices); `numUpvalues` is fixed at allocation from
the prototype's descriptor count. -/
structure Closure where
  function : Function
  upvalues : List Nat
  numUpvalues : Nat

/-- `Closure::from_prototype` (`src/value.rs`): no cells captured yet,
`numUpvalues` taken from the descriptor count. -/
def Closure.fromPrototype (ptrId : Nat) (p : Prototype) : Closure :=
  { function := .prototype ptrId p
    upvalues := []
    numUpvalues := p.upvalues.length }

/-- The `ModuleValue` enum of `src/state.rs`. -/
inductive ModuleValue where
  | native (values : List Value)
  | normal (ptrId : Nat) (proto : Prototype)

/-- The `Module` of `src/state.rs`. -/
structure Module where
  ident : String
  locals : List String
  value : ModuleValue

/-! ## The heap of shared `Rc<RefCell<…>>` allocations

Tables are modelled as association lists of `(key, value)` pairs.  Rust's
`HashMap` locates a key by hash bucket and then `PartialEq`; the model's
lookup scans for the first `PartialEq`-equal key.  (The source's `Hash`
and `PartialEq` for `Value` disagree on shared containers — see claim C8
— so a `HashMap` may additionally *miss* an equal container key whose
hash differs; for keys absent modulo `PartialEq` both the model and the
`HashMap` report absence, which is all the claims rely on.) -/

structure Heap where
  tables : Array (List (Value × Value))
  arrays : Array (Array Value)
  closures : Array Closure
  upvals : Array Upvalue

/-- The empty heap. -/
def Heap.empty : Heap := ⟨#[], #[], #[], #[]⟩

/-- Replace the upvalue cell `id` (models `RefCell::replace` on the
shared cell). -/
def Heap.setUpval (h : Heap) (id : Nat) (u : Upvalue) : Heap :=
  { h with upvals := h.upvals.setD id u }

/-! ## Rust `PartialEq` for `Value` (`src/value.rs`)

`Rc<RefCell<T>>` equality in Rust dereferences and compares the contents,
so tables, arrays and closures compare structurally (deeply), while
`Prototype` (`src/state.rs`) and `UserData` compare by pointer.  The deep
recursion can diverge on cyclic containers (in Rust: unbounded recursion);
the model bounds it by fuel and returns `none` when the fuel runs out. -/

/-- One lookup step of `HashMap::get` modulo hashing: the first entry
whose key is `PartialEq`-equal.  `none` = fuel ran out inside a key
comparison; `some none` = absent; `some (some v)` = present with value
`v`.  `eq` is the key comparator (instantiated with `valueEq`). -/
def tableLookupWith (eq : Value → Value → Option Bool)
    (entries : List (Value × Value)) (key : Value) : Option (Option Value) :=
  entries.foldl
    (fun acc kv =>
      match acc with
      | none => none
      | some (some v) => some (some v)
      | some none =>
        match eq kv.1 key with
        | none => none
        | some true => some (some kv.2)
        | some false => some none)
    (some none)

/-- Conjunction over a list in the three-valued (`Option Bool`) domain. -/
def allOption (l : List (Option Bool)) : Option Bool :=
  l.foldl
    (fun acc b =>
      match acc, b with
      | some true, some true => some true
      | some false, _ => some false
      | _, some false => some false
      | _, _ => none)
    (some true)

/-- `impl PartialEq for Value` (`src/value.rs`), with `Rc` dereferencing
per Rust's `impl PartialEq for Rc<T>`.  Scalars and strings compare
structurally; `Number` follows IEEE (`NaN ≠ NaN`); tables compare as maps
(same size, every left entry present and equal on the right); arrays
compare element-wise; closures compare their function (prototypes by
pointer, natives by ident and function pointer) and their upvalue cells;
modules compare ident, locals and value (normal prototypes by pointer);
`UserData` compares by pointer; differing discriminants compare unequal. -/
def valueEq (h : Heap) : Nat → Value → Value → Option Bool
  | 0, _, _ => none
  | fuel + 1, a, b =>
    match a, b with
    | .bool x, .bool y => some (x == y)
    | .integer x, .integer y => some (x == y)
    | .number x, .number y => some (F64.rustEq x y)
    | .str x, .str y => some (x == y)
    | .table i, .table j =>
      match h.tables[i]?, h.tables[j]? with
      | some ti, some tj =>
        if ti.length = tj.length then
          allOption (ti.map (fun kv =>
            match tableLookupWith (valueEq h fuel) tj kv.1 with
            | none => none
            | some none => some false
            | some (some w) => valueEq h fuel kv.2 w))
        else some false
      | _, _ => none
    | .array i, .array j =>
      match h.arrays[i]?, h.arrays[j]? with
      | some ai, some aj =>
        if ai.size = aj.size then
          allOption ((ai.toList.zip aj.toList).map (fun vw =>
            valueEq h fuel vw.1 vw.2))
        else some false
      | _, _ => none
    | .closure i, .closure j =>
      match h.closures[i]?, h.closures[j]? with
      | some ci, some cj =>
        let fnEq : Bool :=
          match ci.function, cj.function with
          | .prototype p _, .prototype q _ => p == q
          | .native n1 f1, .native n2 f2 => n1 == n2 && f1 == f2
          | _, _ => false
        if fnEq then
          if ci.upvalues.length = cj.upvalues.length then
            allOption ((ci.upvalues.zip cj.upvalues).map (fun uv =>
              match h.upvals[uv.1]?, h.upvals[uv.2]? with
              | some (Upvalue.open_ s1), some (Upvalue.open_ s2) => some (s1 == s2)
              | some (Upvalue.closed v1), some (Upvalue.closed v2) => valueEq h fuel v1 v2
              | some _, some _ => some false
              | _, _ => none))
          else some false
        else some false
      | _, _ => none
    | .module i, .module j => some (i == j)
    | .userData i, .userData j => some (i == j)
    | .unit, .unit => some true
    | _, _ => some false

/-! ## Rust `PartialOrd` for `Value` (`src/value.rs`)

Only numeric pairs are ordered; a mixed integer/float pair promotes the
integer with `as f64`. -/

/-- `impl PartialOrd for Value` (`src/value.rs`). -/
def valueCmp : Value → Value → Option Ordering
  | .integer l, .integer r => some (compare l r)
  | .number l, .number r => F64.cmp l r
  | .integer l, .number r => F64.cmp (F64.ofInt l) r
  | .number l, .integer r => F64.cmp l (F64.ofInt r)
  | _, _ => none

/-- Rust `lhs <= rhs` via `PartialOrd`. -/
def valueLe (a b : Value) : Bool :=
  match valueCmp a b with
  | some .lt => true
  | some .eq => true
  | _ => false

/-- Rust `lhs >= rhs` via `PartialOrd`. -/
def valueGe (a b : Value) : Bool :=
  match valueCmp a b with
  | some .gt => true
  | some .eq => true
  | _ => false

/-- Rust `lhs < rhs` via `PartialOrd`. -/
def valueLt (a b : Value) : Bool :=
  match valueCmp a b with
  | some .lt => true
  | _ => false

/-- Rust `lhs > rhs` via `PartialOrd`. -/
def valueGt (a b : Value) : Bool :=
  match valueCmp a b with
  | some .gt => true
  | _ => false

/-! ## VM state (`src/vm.rs`) -/

/-- The `CallFrame` of `src/vm.rs`: the running closure (heap index), the
instruction pointer, and the base offset of the frame's stack slots. -/
structure Frame where
  closureId : Nat
  ip : Nat
  slotOffset : Nat
deriving DecidableEq, Repr

/-- The `RuntimeError` enum of `src/vm.rs`. -/
inductive RuntimeError where
  | stackOverflow
  | incorrectNumberOfArguments
  | negateOperatorOnNonNumericValue
  | cannotCallNonCallableValue
  | cannotLoadNativeModuleAtRuntime
  | unexpectedType
deriving DecidableEq, Repr

/-- Abnormal outcomes of the interpreter model.  `runtime` is the
recoverable `Err(RuntimeError)` path of the source; `panicked` models a
Rust `panic!`/`todo!`/`unreachable!`/failed `unwrap`/out-of-bounds index
(which aborts rather than propagating an `Err`); `outOfFuel` and
`unmodeledNative` are modelling artefacts (unfinished computation,
resp. a call into an unmodelled native host function). -/
inductive VmErr where
  | runtime (e : RuntimeError)
  | panicked (msg : String)
  | outOfFuel
  | unmodeledNative
deriving DecidableEq, Repr

/-- The `Vm` of `src/vm.rs`.  The source keeps frames and open upvalues
in `Vec`s manipulated at the back; the model keeps both as lists whose
HEAD is the back (most recent element) of the corresponding `Vec`, so the
source's push/pop/iterate-in-reverse become cons/uncons/straight
recursion.  `modules` is the `ModuleLoader`'s module list. -/
structure VmState where
  frames : List Frame
  stack : Array Value
  openUpvalues : List Nat
  heap : Heap
  modules : List Module

/-- `Vm::push`. -/
def VmState.pushV (vm : VmState) (v : Value) : VmState :=
  { vm with stack := vm.stack.push v }

/-- `Vm::pop` (`self.stack.pop().unwrap()`; an empty stack is a panic). -/
def VmState.popV (vm : VmState) : Except VmErr (Value × VmState) :=
  match vm.stack.back? with
  | none => .error (.panicked "unwrap on None")
  | some v => .ok (v, { vm with stack := vm.stack.pop })

/-- Advance the current frame's instruction pointer by `n` (the jump
arms' `self.frames.last_mut().unwrap().ip += location`). -/
def VmState.bumpIp (vm : VmState) (n : Nat) : VmState :=
  match vm.frames with
  | [] => vm
  | f :: rest => { vm with frames := { f with ip := f.ip + n } :: rest }

/-- Rust `i64 as usize` (two's-complement reinterpretation). -/
def usizeOfI64 (i : Int) : Nat := (i % (2 ^ 64)).toNat

/-- `usize::MAX`. -/
def usizeMax : Nat := 2 ^ 64 - 1

/-! ## Upvalue capture and closing (`src/vm.rs`) -/

/-- The reverse scan of `Vm::capture_upvalue`: walk the open-upvalue list
from the most recently pushed cell; an `Open` cell at exactly the wanted
slot is reused (`some id`); an `Open` cell at a strictly smaller slot
stops the scan (`none`, forcing a fresh cell); anything else is skipped. -/
def captureScan (h : Heap) (index : Nat) : List Nat → Option Nat
  | [] => none
  | id :: rest =>
    match h.upvals[id]? with
    | some (Upvalue.open_ slot) =>
      if slot ≤ index then (if slot = index then some id else none)
      else captureScan h index rest
    | _ => captureScan h index rest

/-- `Vm::capture_upvalue`: reuse a matching open cell, otherwise allocate
a fresh `Open` cell and push it onto the open-upvalue list. -/
def VmState.captureUpvalue (vm : VmState) (index : Nat) : Nat × VmState :=
  match captureScan vm.heap index vm.openUpvalues with
  | some id => (id, vm)
  | none =>
    let newId := vm.heap.upvals.size
    (newId,
      { vm with
        heap := { vm.heap with upvals := vm.heap.upvals.push (.open_ index) }
        openUpvalues := newId :: vm.openUpvalues })

/-- The scan of `Vm::close_upvalues`: from the most recent cell, close
every `Open` cell whose slot is `≥ last` (copying the stack value into
the cell) until a cell with a smaller slot stops the scan; the closed
cells are removed (the source's final `truncate`).  A `Closed` cell in
the list hits the source's `unreachable!`; a cell slot outside the stack
panics on the stack index. -/
def closeUpvaluesGo (stack : Array Value) :
    Heap → List Nat → Nat → Except VmErr (List Nat × Heap)
  | h, [], _ => .ok ([], h)
  | h, id :: rest, last =>
    match h.upvals[id]? with
    | none => .error (.panicked "invalid upvalue id")
    | some (Upvalue.closed _) =>
      .error (.panicked "Closed upvalue in open upvalue list.")
    | some (Upvalue.open_ slot) =>
      if slot < last then .ok (id :: rest, h)
      else
        match stack[slot]? with
        | none => .error (.panicked "index out of bounds")
        | some v => closeUpvaluesGo stack (h.setUpval id (.closed v)) rest last

/-- `Vm::close_upvalues` on the whole VM state. -/
def VmState.closeUpvalues (vm : VmState) (last : Nat) : Except VmErr VmState :=
  match closeUpvaluesGo vm.stack vm.heap vm.openUpvalues last with
  | .error e => .error e
  | .ok (open', heap') => .ok { vm with openUpvalues := open', heap := heap' }

/-! ## Small helpers for container opcodes -/

/-- `HashMap::insert` modulo hashing: replace the value of the first
`PartialEq`-equal key (keeping the stored key, as `HashMap` does),
otherwise append.  `none` = the key comparator ran out of fuel. -/
def tableInsertWith (eq : Value → Value → Option Bool) :
    List (Value × Value) → Value → Value → Option (List (Value × Value))
  | [], key, value => some [(key, value)]
  | kv :: rest, key, value =>
    match eq kv.1 key with
    | none => none
    | some true => some ((kv.1, value) :: rest)
    | some false => (tableInsertWith eq rest key value).map (kv :: ·)

/-- Pop `n` values, returning them in stack order (deepest first) — the
effect of the `CreateList` loop's `array.insert(0, value)`. -/
def popNStack : Nat → VmState → Except VmErr (List Value × VmState)
  | 0, vm => .ok ([], vm)
  | n + 1, vm =>
    match vm.popV with
    | .error e => .error e
    | .ok (v, vm1) =>
      match popNStack n vm1 with
      | .error e => .error e
      | .ok (vs, vm2) => .ok (vs ++ [v], vm2)

/-- The `CreateTable` loop: `size` times pop a value then a key and
insert the pair.  The heap is unchanged by the loop, so the comparator is
fixed up front. -/
def createTableLoop (eq : Value → Value → Option Bool) :
    Nat → VmState → List (Value × Value) →
    Except VmErr (List (Value × Value) × VmState)
  | 0, vm, acc => .ok (acc, vm)
  | n + 1, vm, acc =>
    match vm.popV with
    | .error e => .error e
    | .ok (value, vm1) =>
      match vm1.popV with
      | .error e => .error e
      | .ok (key, vm2) =>
        match tableInsertWith eq acc key value with
        | none => .error .outOfFuel
        | some acc' => createTableLoop eq n vm2 acc'

/-- The capture loop of the `Closure` opcode: walk the child's upvalue
descriptors in order; a local descriptor captures the stack slot
`slot_offset + index`, a non-local one shares the current closure's cell
at `index`. -/
def captureAll (slotOffset : Nat) (curUpvals : List Nat) :
    VmState → List UpvalueDesc → Except VmErr (List Nat × VmState)
  | vm, [] => .ok ([], vm)
  | vm, d :: rest =>
    if d.isLocal then
      match vm.captureUpvalue (slotOffset + d.index) with
      | (uid, vm1) =>
        match captureAll slotOffset curUpvals vm1 rest with
        | .error e => .error e
        | .ok (ids, vm2) => .ok (uid :: ids, vm2)
    else
      match curUpvals[d.index]? with
      | none => .error (.panicked "index out of bounds")
      | some uid =>
        match captureAll slotOffset curUpvals vm rest with
        | .error e => .error e
        | .ok (ids, vm2) => .ok (uid :: ids, vm2)

/-! ## The dispatch loop `Vm::run` (`src/vm.rs`)

One invocation of `run` executes the current (top) frame until its
`Return`, a fall off the end of its code, or an abnormal outcome.  The
`Call` opcode pushes a new frame and re-enters `run` recursively exactly
as `Vm::call` does; when the recursive invocation returns `Ok` the outer
loop continues.  Each loop iteration consumes one unit of fuel.

The checked-in `src/vm.rs` has no dispatch arm for `ExtraArg` or
`Concat` (opcodes the checked-in `src/compiler.rs` emits); executing one
is modelled as a panic. -/

def run : Nat → VmState → Except VmErr VmState
  | 0, _ => .error .outOfFuel
  | fuel + 1, vm0 =>
    match vm0.frames with
    | [] => .error (.panicked "unwrap on None")
    | fr :: restFrames =>
      match vm0.heap.closures[fr.closureId]? with
      | none => .error (.panicked "invalid closure id")
      | some cl =>
        match cl.function with
        | .native _ _ => .error (.panicked "unwrap on None")
        | .prototype _ proto =>
          let ip1 := fr.ip + 1
          if ip1 > proto.code.length then
            .ok { vm0 with frames := { fr with ip := ip1 } :: restFrames }
          else
            match proto.code[ip1 - 1]? with
            | none => .error (.panicked "index out of bounds")
            | some op =>
              let vm := { vm0 with frames := { fr with ip := ip1 } :: restFrames }
              match op with
              | .loadConst index =>
                match proto.constants[index]? with
                | none => .error (.panicked "index out of bounds")
                | some v => run fuel (vm.pushV v)
              | .loadUnit => run fuel (vm.pushV .unit)
              | .loadTrue => run fuel (vm.pushV (.bool true))
              | .loadFalse => run fuel (vm.pushV (.bool false))
              | .loadInt n => run fuel (vm.pushV (.integer n))
              | .getLocal slot =>
                match vm.stack[fr.slotOffset + slot]? with
                | none => .error (.panicked "index out of bounds")
                | some v => run fuel (vm.pushV v)
              | .getUpvalue index =>
                match cl.upvalues[index]? with
                | none => .error (.panicked "index out of bounds")
                | some uid =>
                  match vm.heap.upvals[uid]? with
                  | none => .error (.panicked "invalid upvalue id")
                  | some (Upvalue.open_ slot) =>
                    match vm.stack[slot]? with
                    | none => .error (.panicked "index out of bounds")
                    | some v => run fuel (vm.pushV v)
                  | some (Upvalue.closed v) => run fuel (vm.pushV v)
              | .getModule index =>
                match vm.modules[index]? with
                | none => .error (.panicked "unwrap on None")
                | some _ => run fuel (vm.pushV (.module index))
              | .getTable =>
                match vm.popV with
                | .error e => .error e
                | .ok (key, vm1) =>
                  match vm1.popV with
                  | .error e => .error e
                  | .ok (container, vm2) =>
                    match container with
                    | .table tid =>
                      match vm2.heap.tables[tid]? with
                      | none => .error (.panicked "invalid table id")
                      | some entries =>
                        match tableLookupWith (valueEq vm2.heap fuel) entries key with
                        | none => .error .outOfFuel
                        | some none => run fuel (vm2.pushV .unit)
                        | some (some v) => run fuel (vm2.pushV v)
                    | .array aid =>
                      match key with
                      | .integer i =>
                        match vm2.heap.arrays[aid]? with
                        | none => .error (.panicked "invalid array id")
                        | some arr =>
                          let idx := usizeOfI64 i
                          if idx ≥ arr.size then .error (.panicked "Out of bounds")
                          else
                            match arr[idx]? with
                            | none => .error (.panicked "index out of bounds")
                            | some v => run fuel (vm2.pushV v)
                      | _ => .error (.panicked "Non integer value cannot index array")
                    | .module mid =>
                      match key with
                      | .integer i =>
                        match vm2.modules[mid]? with
                        | none => .error (.panicked "unwrap on None")
                        | some m =>
                          match m.value with
                          | .native vals =>
                            match vals[usizeOfI64 i]? with
                            | none => .error (.panicked "index out of bounds")
                            | some v => run fuel (vm2.pushV v)
                          | .normal pid mproto =>
                            let cid := vm2.heap.closures.size
                            let vm3 := { vm2 with heap :=
                              { vm2.heap with closures :=
                                vm2.heap.closures.push (Closure.fromPrototype pid mproto) } }
                            let vm4 := vm3.pushV (.closure cid)
                            if mproto.numArgs ≠ 0 then
                              .error (.runtime .incorrectNumberOfArguments)
                            else if vm4.frames.length = usizeMax then
                              .error (.runtime .stackOverflow)
                            else
                              let newFr : Frame := ⟨cid, 0, vm4.stack.size - 1⟩
                              match run fuel { vm4 with frames := newFr :: vm4.frames } with
                              | .error e => .error e
                              | .ok vm5 =>
                                match vm5.frames with
                                | [] => .error (.panicked "unwrap on None")
                                | topFr :: restF =>
                                  match vm5.stack[topFr.slotOffset + usizeOfI64 i]? with
                                  | none => .error (.panicked "index out of bounds")
                                  | some value =>
                                    match closeUpvaluesGo vm5.stack vm5.heap
                                        vm5.openUpvalues topFr.slotOffset with
                                    | .error e => .error e
                                    | .ok (open', heap') =>
                                      let vm6 : VmState :=
                                        { vm5 with
                                          heap := heap'
                                          openUpvalues := open'
                                          frames := restF
                                          stack := vm5.stack.extract 0 topFr.slotOffset }
                                      run fuel (vm6.pushV value)
                      | _ => .error (.panicked "internal error: entered unreachable code")
                    | _ => .error (.panicked "Unable to index value")
              | .setLocal slot =>
                match vm.stack.back? with
                | none => .error (.panicked "unwrap on None")
                | some front =>
                  if fr.slotOffset + slot < vm.stack.size then
                    run fuel { vm with stack := vm.stack.setD (fr.slotOffset + slot) front }
                  else .error (.panicked "index out of bounds")
              | .setUpvalue index =>
                match vm.popV with
                | .error e => .error e
                | .ok (value, vm1) =>
                  match cl.upvalues[index]? with
                  | none => .error (.panicked "index out of bounds")
                  | some uid =>
                    match vm1.heap.upvals[uid]? with
                    | none => .error (.panicked "invalid upvalue id")
                    | some (Upvalue.open_ slot) =>
                      if slot < vm1.stack.size then
                        run fuel { vm1 with stack := vm1.stack.setD slot value }
                      else .error (.panicked "index out of bounds")
                    | some (Upvalue.closed _) =>
                      run fuel { vm1 with heap := vm1.heap.setUpval uid (.closed value) }
              | .setTable =>
                match vm.popV with
                | .error e => .error e
                | .ok (value, vm1) =>
                  match vm1.popV with
                  | .error e => .error e
                  | .ok (key, vm2) =>
                    match vm2.popV with
                    | .error e => .error e
                    | .ok (container, vm3) =>
                      match container with
                      | .table tid =>
                        match vm3.heap.tables[tid]? with
                        | none => .error (.panicked "invalid table id")
                        | some entries =>
                          match tableInsertWith (valueEq vm3.heap fuel) entries key value with
                          | none => .error .outOfFuel
                          | some entries' =>
                            run fuel { vm3 with heap :=
                              { vm3.heap with tables := vm3.heap.tables.setD tid entries' } }
                      | .array aid =>
                        match key with
                        | .integer i =>
                          match vm3.heap.arrays[aid]? with
                          | none => .error (.panicked "invalid array id")
                          | some arr =>
                            let idx := usizeOfI64 i
                            let arr' :=
                              if idx ≥ arr.size then
                                arr ++ Array.mkArray (idx + 1 - arr.size) Value.unit
                              else arr
                            run fuel { vm3 with heap :=
                              { vm3.heap with arrays :=
                                vm3.heap.arrays.setD aid (arr'.setD idx value) } }
                        | _ => .error (.panicked "Non integer value cannot index array")
                      | _ => .error (.panicked "Unable to index value")
              | .createList size =>
                match popNStack size vm with
                | .error e => .error e
                | .ok (vs, vm1) =>
                  let aid := vm1.heap.arrays.size
                  let vm2 := { vm1 with heap :=
                    { vm1.heap with arrays := vm1.heap.arrays.push (Array.mk vs) } }
                  run fuel (vm2.pushV (.array aid))
              | .createTable size =>
                match createTableLoop (valueEq vm.heap fuel) size vm [] with
                | .error e => .error e
                | .ok (entries, vm1) =>
                  let tid := vm1.heap.tables.size
                  let vm2 := { vm1 with heap :=
                    { vm1.heap with tables := vm1.heap.tables.push entries } }
                  run fuel (vm2.pushV (.table tid))
              | .closure index =>
                match cl.function with
                | .native _ _ => .error (.panicked "unwrap on None")
                | .prototype pid _ =>
                  match proto.prototypes[index]? with
                  | none => .error (.panicked "index out of bounds")
                  | some child =>
                    match captureAll fr.slotOffset cl.upvalues vm child.upvalues with
                    | .error e => .error e
                    | .ok (ids, vm1) =>
                      let newClosure : Closure :=
                        { function := .prototype (Nat.pair pid index) child
                          upvalues := ids
                          numUpvalues := child.upvalues.length }
                      let cid := vm1.heap.closures.size
                      let vm2 := { vm1 with heap :=
                        { vm1.heap with closures := vm1.heap.closures.push newClosure } }
                      run fuel (vm2.pushV (.closure cid))
              | .add =>
                match vm.popV with
                | .error e => .error e
                | .ok (rhs, vm1) =>
                  match vm1.popV with
                  | .error e => .error e
                  | .ok (lhs, vm2) =>
                    match lhs, rhs with
                    | .number l, .number r => run fuel (vm2.pushV (.number (F64.add l r)))
                    | .integer l, .integer r => run fuel (vm2.pushV (.integer (l + r)))
                    | .integer l, .number r =>
                      run fuel (vm2.pushV (.number (F64.add (F64.ofInt l) r)))
                    | .number l, .integer r =>
                      run fuel (vm2.pushV (.number (F64.add l (F64.ofInt r))))
                    | _, _ => .error (.panicked "invalid values")
              | .subtract =>
                match vm.popV with
                | .error e => .error e
                | .ok (rhs, vm1) =>
                  match vm1.popV with
                  | .error e => .error e
                  | .ok (lhs, vm2) =>
                    match lhs, rhs with
                    | .number l, .number r => run fuel (vm2.pushV (.number (F64.sub l r)))
                    | .integer l, .integer r => run fuel (vm2.pushV (.integer (l - r)))
                    | .integer l, .number r =>
                      run fuel (vm2.pushV (.number (F64.sub (F64.ofInt l) r)))
                    | .number l, .integer r =>
                      run fuel (vm2.pushV (.number (F64.sub l (F64.ofInt r))))
                    | _, _ => .error (.panicked "not yet implemented")
              | .divide =>
                match vm.popV with
                | .error e => .error e
                | .ok (rhs, vm1) =>
                  match vm1.popV with
                  | .error e => .error e
                  | .ok (lhs, vm2) =>
                    match lhs, rhs with
                    | .number l, .number r => run fuel (vm2.pushV (.number (F64.div l r)))
                    | .integer l, .integer r =>
                      if r = 0 then .error (.panicked "attempt to divide by zero")
                      else run fuel (vm2.pushV (.integer (Int.tdiv l r)))
                    | .integer l, .number r =>
                      run fuel (vm2.pushV (.number (F64.div (F64.ofInt l) r)))
                    | .number l, .integer r =>
                      run fuel (vm2.pushV (.number (F64.div l (F64.ofInt r))))
                    | _, _ => .error (.panicked "not yet implemented")
              | .idivide =>
                match vm.popV with
                | .error e => .error e
                | .ok (rhs, vm1) =>
                  match vm1.popV with
                  | .error e => .error e
                  | .ok (lhs, vm2) =>
                    match lhs, rhs with
                    | .number l, .number r =>
                      if F64.toI64 r = 0 then .error (.panicked "attempt to divide by zero")
                      else run fuel (vm2.pushV (.integer (Int.tdiv (F64.toI64 l) (F64.toI64 r))))
                    | .integer l, .integer r =>
                      if r = 0 then .error (.panicked "attempt to divide by zero")
                      else run fuel (vm2.pushV (.integer (Int.tdiv l r)))
                    | .integer l, .number r =>
                      if F64.toI64 r = 0 then .error (.panicked "attempt to divide by zero")
                      else run fuel (vm2.pushV (.integer (Int.tdiv l (F64.toI64 r))))
                    | .number l, .integer r =>
                      if r = 0 then .error (.panicked "attempt to divide by zero")
                      else run fuel (vm2.pushV (.integer (Int.tdiv (F64.toI64 l) r)))
                    | _, _ => .error (.panicked "not yet implemented")
              | .multiply =>
                match vm.popV with
                | .error e => .error e
                | .ok (rhs, vm1) =>
                  match vm1.popV with
                  | .error e => .error e
                  | .ok (lhs, vm2) =>
                    match lhs, rhs with
                    | .number l, .number r => run fuel (vm2.pushV (.number (F64.mul l r)))
                    | .integer l, .integer r => run fuel (vm2.pushV (.integer (l * r)))
                    | .integer l, .number r =>
                      run fuel (vm2.pushV (.number (F64.mul (F64.ofInt l) r)))
                    | .number l, .integer r =>
                      run fuel (vm2.pushV (.number (F64.mul l (F64.ofInt r))))
                    | _, _ => .error (.panicked "not yet implemented")
              | .modulus =>
                match vm.popV with
                | .error e => .error e
                | .ok (rhs, vm1) =>
                  match vm1.popV with
                  | .error e => .error e
                  | .ok (lhs, vm2) =>
                    match lhs, rhs with
                    | .number l, .number r => run fuel (vm2.pushV (.number (F64.fmod l r)))
                    | .integer l, .integer r =>
                      if r = 0 then
                        .error (.panicked "attempt to calculate the remainder with a divisor of zero")
                      else run fuel (vm2.pushV (.integer (Int.tmod l r)))
                    | .integer l, .number r =>
                      run fuel (vm2.pushV (.number (F64.fmod (F64.ofInt l) r)))
                    | .number l, .integer r =>
                      run fuel (vm2.pushV (.number (F64.fmod l (F64.ofInt r))))
                    | _, _ => .error (.panicked "not yet implemented")
              | .negate =>
                match vm.popV with
                | .error e => .error e
                | .ok (value, vm1) =>
                  match value with
                  | .integer i => run fuel (vm1.pushV (.integer (-i)))
                  | .number n => run fuel (vm1.pushV (.number (F64.neg n)))
                  | _ => .error (.runtime .negateOperatorOnNonNumericValue)
              | .not =>
                match vm.popV with
                | .error e => .error e
                | .ok (value, vm1) => run fuel (vm1.pushV (.bool value.isFalse))
              | .call numArgs =>
                match vm.stack[vm.stack.size - 1 - numArgs]? with
                | none => .error (.panicked "unwrap on None")
                | some value =>
                  match value with
                  | .closure cid =>
                    match vm.heap.closures[cid]? with
                    | none => .error (.panicked "invalid closure id")
                    | some callee =>
                      match callee.function with
                      | .prototype _ calleeProto =>
                        if calleeProto.numArgs ≠ numArgs then
                          .error (.runtime .incorrectNumberOfArguments)
                        else if vm.frames.length = usizeMax then
                          .error (.runtime .stackOverflow)
                        else
                          let newFr : Frame := ⟨cid, 0, vm.stack.size - numArgs - 1⟩
                          match run fuel { vm with frames := newFr :: vm.frames } with
                          | .error e => .error e
                          | .ok vm1 => run fuel vm1
                      | .native _ _ => .error .unmodeledNative
                  | _ => .error (.runtime .cannotCallNonCallableValue)
              | .cmpEq =>
                match vm.popV with
                | .error e => .error e
                | .ok (rhs, vm1) =>
                  match vm1.popV with
                  | .error e => .error e
                  | .ok (lhs, vm2) =>
                    match valueEq vm2.heap fuel lhs rhs with
                    | none => .error .outOfFuel
                    | some b => run fuel (vm2.pushV (.bool b))
              | .cmpNEq =>
                match vm.popV with
                | .error e => .error e
                | .ok (rhs, vm1) =>
                  match vm1.popV with
                  | .error e => .error e
                  | .ok (lhs, vm2) =>
                    match valueEq vm2.heap fuel lhs rhs with
                    | none => .error .outOfFuel
                    | some b => run fuel (vm2.pushV (.bool (!b)))
              | .cmpLEq =>
                match vm.popV with
                | .error e => .error e
                | .ok (rhs, vm1) =>
                  match vm1.popV with
                  | .error e => .error e
                  | .ok (lhs, vm2) => run fuel (vm2.pushV (.bool (valueLe lhs rhs)))
              | .cmpGEq =>
                match vm.popV with
                | .error e => .error e
                | .ok (rhs, vm1) =>
                  match vm1.popV with
                  | .error e => .error e
                  | .ok (lhs, vm2) => run fuel (vm2.pushV (.bool (valueGe lhs rhs)))
              | .cmpGreater =>
                match vm.popV with
                | .error e => .error e
                | .ok (rhs, vm1) =>
                  match vm1.popV with
                  | .error e => .error e
                  | .ok (lhs, vm2) => run fuel (vm2.pushV (.bool (valueGt lhs rhs)))
              | .cmpLess =>
                match vm.popV with
                | .error e => .error e
                | .ok (rhs, vm1) =>
                  match vm1.popV with
                  | .error e => .error e
                  | .ok (lhs, vm2) => run fuel (vm2.pushV (.bool (valueLt lhs rhs)))
              | .cmpAnd =>
                match vm.popV with
                | .error e => .error e
                | .ok (rhs, vm1) =>
                  match vm1.popV with
                  | .error e => .error e
                  | .ok (lhs, vm2) =>
                    run fuel (vm2.pushV (.bool (!(lhs.isFalse && rhs.isFalse))))
              | .cmpOr =>
                match vm.popV with
                | .error e => .error e
                | .ok (rhs, vm1) =>
                  match vm1.popV with
                  | .error e => .error e
                  | .ok (lhs, vm2) =>
                    run fuel (vm2.pushV (.bool (!lhs.isFalse || !rhs.isFalse)))
              | .jumpIfFalse location =>
                match vm.popV with
                | .error e => .error e
                | .ok (value, vm1) =>
                  if value.isFalse then run fuel (vm1.bumpIp location)
                  else run fuel vm1
              | .jump location => run fuel (vm.bumpIp location)
              | .closeUpvalue index =>
                match vm.closeUpvalues (fr.slotOffset + index) with
                | .error e => .error e
                | .ok vm1 => run fuel vm1
              | .pop =>
                match vm.popV with
                | .error e => .error e
                | .ok (_, vm1) => run fuel vm1
              | .ret =>
                if vm.frames.length = 1 then .ok vm
                else
                  match vm.popV with
                  | .error e => .error e
                  | .ok (result, vm1) =>
                    match vm1.frames with
                    | [] => .error (.panicked "unwrap on None")
                    | topFr :: restF =>
                      match closeUpvaluesGo vm1.stack vm1.heap vm1.openUpvalues
                          topFr.slotOffset with
                      | .error e => .error e
                      | .ok (open', heap') =>
                        let vm2 : VmState :=
                          { vm1 with heap := heap', openUpvalues := open', frames := restF }
                        if restF.isEmpty then .ok vm2
                        else
                          let vm3 :=
                            { vm2 with stack := vm2.stack.extract 0 topFr.slotOffset }
                          .ok (vm3.pushV result)
              | .extraArg _ => .error (.panicked "no dispatch arm for ExtraArg")
              | .concat => .error (.panicked "no dispatch arm for Concat")

/-- `Vm::call` (`src/vm.rs`): check the declared argument count, push a
frame whose `slot_offset` is `stack.len() − num_args − 1`, and run it. -/
def callClosure (fuel : Nat) (vm : VmState) (cid : Nat) (numArgs : Nat) :
    Except VmErr VmState :=
  match vm.heap.closures[cid]? with
  | none => .error (.panicked "invalid closure id")
  | some cl =>
    match cl.function.prototype? with
    | none => .error (.panicked "unwrap on None")
    | some proto =>
      if proto.numArgs ≠ numArgs then .error (.runtime .incorrectNumberOfArguments)
      else if vm.frames.length = usizeMax then .error (.runtime .stackOverflow)
      else
        run fuel
          { vm with frames := ⟨cid, 0, vm.stack.size - numArgs - 1⟩ :: vm.frames }

/-! ## The AST (`src/ast.rs`)

The model keeps the constructors the claims exercise.  `Function`
(named and anonymous function definitions), `Import` and
`InterpolatedString` nodes, whose compilation requires the nested
`CompilerState` chain and the module loader, are outside the model;
`Literal::Char` is likewise omitted (the checked-in `src/value.rs` has no
`Char` variant for it to compile into). -/

inductive UnaryOperation where
  | not
  | negate
deriving DecidableEq, Repr

inductive ArithmeticOperator where
  | add
  | subtract
  | divide
  | idivide
  | multiply
  | modulus
deriving DecidableEq, Repr

inductive ComparisonOperator where
  | less
  | lessEqual
  | equal
  | notEqual
  | greaterEqual
  | greater
deriving DecidableEq, Repr

inductive BooleanOperator where
  | and
  | or
deriving DecidableEq, Repr

inductive Operation where
  | assignment
  | arithmetic (op : ArithmeticOperator)
  | comparison (op : ComparisonOperator)
  | boolean (op : BooleanOperator)
  | concat
deriving DecidableEq, Repr

inductive Literal where
  | unit
  | bool (b : Bool)
  | integer (i : Int)
  | number (x : F64)
  | str (s : String)
deriving DecidableEq, Repr

mutual
inductive Expression where
  | unaryOperation (operand : Expression) (operation : UnaryOperation)
  | operation (lhs : Expression) (operation : Operation) (rhs : Expression)
  | array (elems : List Expression)
  | table (entries : List TableEntry)
  | literal (l : Literal)
  | block (stmts : List Statement)
  | path (ident : String) (parts : List PathPart)
  | call (callee : Expression) (args : List Expression)
  | ifE (condition : Expression) (block : Expression) (elseB : Option Expression)
inductive TableEntry where
  | mk (key : Expression) (value : Expression)
inductive PathPart where
  | ident (s : String)
  | index (e : Expression)
inductive Statement where
  | letS (lineNo : Nat) (ident : String) (value : Option Expression)
  | expression (lineNo : Nat) (expression : Expression)
end

/-- `Statement::is_expression` (`src/ast.rs`). -/
def Statement.isExpression : Statement → Bool
  | .expression _ _ => true
  | .letS _ _ _ => false

/-! ## The scope resolver (`src/compiler.rs`) -/

/-- The `Local` of `src/state.rs` as used by the resolver. -/
structure Local where
  ident : String
  depth : Nat
  isCaptured : Bool
deriving DecidableEq, Repr

/-- The `ScopeResolver` of `src/compiler.rs`. -/
structure ScopeResolver where
  locals : List Local
  depth : Nat
  baseDepth : Nat
deriving DecidableEq, Repr

/-- A fresh resolver (`ScopeResolver::new`). -/
def ScopeResolver.new : ScopeResolver := ⟨[], 0, 0⟩

/-- `ScopeResolver::begin_scope`. -/
def ScopeResolver.beginScope (r : ScopeResolver) : ScopeResolver :=
  { r with depth := r.depth + 1 }

/-- `ScopeResolver::num_locals_defined_in_scope`: count, from the most
recent local backwards, those whose depth is at least the current one. -/
def ScopeResolver.numLocalsDefinedInScope (r : ScopeResolver) : Nat :=
  (r.locals.reverse.takeWhile (fun l => r.depth ≤ l.depth)).length

/-- `ScopeResolver::end_scope`: drop the locals of the closing scope and
step the depth back (never below `base_depth`). -/
def ScopeResolver.endScope (r : ScopeResolver) : ScopeResolver :=
  let n := r.numLocalsDefinedInScope
  let depth' := if r.baseDepth < r.depth then r.depth - 1 else r.depth
  { r with depth := depth', locals := r.locals.take (r.locals.length - n) }

/-- `ScopeResolver::resolve_local`: latest-wins scan for the ident. -/
def ScopeResolver.resolveLocal (r : ScopeResolver) (ident : String) : Option Nat :=
  match r.locals.reverse.findIdx? (fun l => l.ident == ident) with
  | none => none
  | some j => some (r.locals.length - 1 - j)

/-! ## The compiler (`src/compiler.rs`) -/

/-- The `CompilerError` enum of `src/compiler.rs` (the `ParserError`
payload is out of the model's scope). -/
inductive CompilerError where
  | parserError
  | maxNumberOfConstsExceeded
  | notImplemented
  | endOfSource
  | unexpectedLocalAssignment
  | unexpectedExpression
  | listInitializerTooLong
  | nameNotFound (ident : String)
  | mapInitializerTooLong
  | maxNumberOfLocalsExceeded
  | maxNumberOfArgsExceeded
  | notAValidConstant
  | cannotSetTheValueOfAModule
deriving DecidableEq, Repr

/-- Abnormal compilation outcomes: a source-level `CompilerError`, a Rust
panic (`unreachable!`/index panic), or exhausted recursion fuel (a
modelling artefact). -/
inductive CompErr where
  | compiler (e : CompilerError)
  | panicked (msg : String)
  | outOfFuel
deriving DecidableEq, Repr

/-- The `ModuleAlias` of `src/state.rs`. -/
structure ModuleAlias where
  ident : String
  moduleIndex : Nat
  localIndex : Nat
deriving DecidableEq, Repr

/-- Compilation state for a single function: the prototype under
construction (opcode list and constant pool) plus the scope resolver,
module aliases and the module provider's list.  The source additionally
threads a parent chain and child `CompilerState`s for nested function
definitions, and per-opcode line numbers; both are outside the model (the
modelled state corresponds to a parentless `CompilerState`, for which the
source's `resolve_upvalue` immediately returns `None`). -/
structure CompilerState where
  code : List OpCode
  constants : List Value
  resolver : ScopeResolver
  moduleAliases : List ModuleAlias
  modules : List Module

namespace Compiler

/-- `Compiler::emit_code` (line recording omitted). -/
def emitCode (st : CompilerState) (op : OpCode) : CompilerState :=
  { st with code := st.code ++ [op] }

/-- Rust `Value` equality as used by the constant pool's deduplication
(`Prototype::add_constant`).  Only unit, bool, integer, number and string
values ever enter the pool (`Compiler::constant` rejects the rest), and
on those `PartialEq` is structural and heap-free; the container arms
below are unreachable from the compiler and conservatively report
inequality. -/
def constValueEq : Value → Value → Bool
  | .bool x, .bool y => x == y
  | .integer x, .integer y => x == y
  | .number x, .number y => F64.rustEq x y
  | .str x, .str y => x == y
  | .unit, .unit => true
  | _, _ => false

/-- `Prototype::add_constant` (`src/state.rs`): refuse a pool that
already has more than 256 entries, otherwise deduplicate by equality or
append. -/
def addConstant (st : CompilerState) (v : Value) : Option (Nat × CompilerState) :=
  if st.constants.length > 255 then none
  else
    match st.constants.findIdx? (fun w => constValueEq w v) with
    | some idx => some (idx, st)
    | none => some (st.constants.length, { st with constants := st.constants ++ [v] })

/-- `Compiler::constant`: dedicated opcodes for unit, bools and integers
that fit a byte (the source tests `i <= u8::MAX`, so the `as u8` cast is
modelled with `% 256`); pool slots for larger integers, numbers and
strings; anything else is not a valid constant. -/
def constant (st : CompilerState) (v : Value) : Except CompErr CompilerState :=
  match v with
  | .unit => .ok (emitCode st .loadUnit)
  | .bool b => .ok (emitCode st (if b then .loadTrue else .loadFalse))
  | .integer i =>
    if i ≤ 255 then .ok (emitCode st (.loadInt (i % 256).toNat))
    else
      match addConstant st (.integer i) with
      | none => .error (.compiler .maxNumberOfConstsExceeded)
      | some (idx, st1) => .ok (emitCode st1 (.loadConst idx))
  | .number n =>
    match addConstant st (.number n) with
    | none => .error (.compiler .maxNumberOfConstsExceeded)
    | some (idx, st1) => .ok (emitCode st1 (.loadConst idx))
  | .str s =>
    match addConstant st (.str s) with
    | none => .error (.compiler .maxNumberOfConstsExceeded)
    | some (idx, st1) => .ok (emitCode st1 (.loadConst idx))
  | _ => .error (.compiler .notAValidConstant)

/-- `Compiler::literal`: the `Value` a literal compiles through. -/
def literal (st : CompilerState) (l : Literal) : Except CompErr CompilerState :=
  match l with
  | .unit => constant st .unit
  | .bool b => constant st (.bool b)
  | .integer i => constant st (.integer i)
  | .number n => constant st (.number n)
  | .str s => constant st (.str s)

/-- `Compiler::emit_jump`: remember the position of the jump opcode, emit
it followed by an `ExtraArg 0` placeholder. -/
def emitJump (st : CompilerState) (op : OpCode) : Nat × CompilerState :=
  let index := st.code.length
  (index, emitCode (emitCode st op) (.extraArg 0))

/-- `Compiler::patch_jump`: write the jump distance
`code.len() − 2 − index` into the placeholder pair — low byte into the
`Jump`/`JumpIfFalse` opcode, high byte into the following `ExtraArg`. -/
def patchJump (st : CompilerState) (index : Nat) : Except CompErr CompilerState :=
  let len := st.code.length - 2 - index
  match st.code[index]? with
  | some (OpCode.jump _) =>
    let code1 := st.code.set index (OpCode.jump (len % 256))
    match code1[index + 1]? with
    | some (OpCode.extraArg _) =>
      .ok { st with code := code1.set (index + 1) (OpCode.extraArg ((len >>> 8) % 256)) }
    | _ => .error (.panicked "internal error: entered unreachable code")
  | some (OpCode.jumpIfFalse _) =>
    let code1 := st.code.set index (OpCode.jumpIfFalse (len % 256))
    match code1[index + 1]? with
    | some (OpCode.extraArg _) =>
      .ok { st with code := code1.set (index + 1) (OpCode.extraArg ((len >>> 8) % 256)) }
    | _ => .error (.panicked "internal error: entered unreachable code")
  | _ => .error (.panicked "internal error: entered unreachable code")

/-- `Compiler::begin_scope`. -/
def beginScope (st : CompilerState) : CompilerState :=
  { st with resolver := st.resolver.beginScope }

/-- `Compiler::end_scope`: emit `CloseUpvalue` for each captured local of
the closing scope (most recent first), then pop the scope.  (The source
also returns the count, unused by the arms under scrutiny.) -/
def endScope (st : CompilerState) : CompilerState :=
  let size := st.resolver.numLocalsDefinedInScope
  let numLocals := st.resolver.locals.length
  let st1 := (List.range size).foldl
    (fun acc i =>
      match st.resolver.locals[numLocals - 1 - i]? with
      | some l =>
        if l.isCaptured then emitCode acc (.closeUpvalue ((numLocals - 1 - i) % 256))
        else acc
      | none => acc)
    st
  { st1 with resolver := st1.resolver.endScope }

/-- `Compiler::add_local` via `ScopeResolver::add_local`: refuse more
than 256 locals, else append at the current depth.  (The prototype's
debug-local list is omitted.) -/
def addLocal (st : CompilerState) (ident : String) : Except CompErr CompilerState :=
  if st.resolver.locals.length > 255 then .error (.compiler .maxNumberOfLocalsExceeded)
  else
    .ok { st with resolver :=
      { st.resolver with locals :=
        st.resolver.locals ++ [⟨ident, st.resolver.depth, false⟩] } }

/-- `Compiler::resolve_name`: a local resolves to `GetLocal`/`SetLocal`.
The modelled state is parentless, so the source's upvalue fallback
(`resolve_upvalue`, which starts by following the parent link) returns
`None` exactly as modelled. -/
def resolveName (st : CompilerState) (ident : String) : Option (OpCode × Option OpCode) :=
  match st.resolver.resolveLocal ident with
  | some l => some (.getLocal (l % 256), some (.setLocal (l % 256)))
  | none => none

/-- `Compiler::resolve_module_alias`. -/
def resolveModuleAlias (st : CompilerState) (ident : String) : Option ModuleAlias :=
  st.moduleAliases.find? (fun a => a.ident == ident)

/-- `Compiler::resolve_module` via `ModuleLoader::module`. -/
def resolveModule (st : CompilerState) (ident : String) : Option Nat :=
  st.modules.findIdx? (fun m => m.ident == ident)

end Compiler

/-- `Compiler::expression` (`src/compiler.rs`), mutually recursive with
`Compiler::statement` and `Compiler::assignment`, which are inlined at
their single call sites (the `Block` arm resp. the `Assignment` arm).
Recursion is fuel-indexed so the definition stays kernel-reducible; the
fuel bounds the AST nesting depth and exhausting it is `CompErr.outOfFuel`.
Arms for `Function`, `InterpolatedString` and statement forms
`Function`/`Import` are outside the model (see the AST note). -/
def Compiler.expression : Nat → CompilerState → Expression → Except CompErr CompilerState
  | 0, _, _ => .error .outOfFuel
  | fuel + 1, st, e =>
    match e with
    | .unaryOperation operand operation =>
      match Compiler.expression fuel st operand with
      | .error err => .error err
      | .ok st1 =>
        match operation with
        | .not => .ok (Compiler.emitCode st1 .not)
        | .negate => .ok (Compiler.emitCode st1 .negate)
    | .operation lhs op rhs =>
      match op with
      | .assignment =>
        match lhs with
        | .path ident parts =>
          match
            (match Compiler.resolveName st ident with
             | some gs => Except.ok gs
             | none =>
               match Compiler.resolveModule st ident with
               | some m => .ok (OpCode.getModule (m % 256), (none : Option OpCode))
               | none => .error (CompErr.compiler (.nameNotFound ident))) with
          | .error err => .error err
          | .ok (getter, setter) =>
            if parts.isEmpty then
              match Compiler.expression fuel st rhs with
              | .error err => .error err
              | .ok st1 =>
                match setter with
                | some s => .ok (Compiler.emitCode st1 s)
                | none => .error (.compiler .cannotSetTheValueOfAModule)
            else
              let st1 := Compiler.emitCode st getter
              let numParts := parts.length
              match
                parts.enum.foldlM
                  (fun acc p =>
                    let step : Except CompErr CompilerState :=
                      match p.2 with
                      | PathPart.ident pident => Compiler.constant acc (.str pident)
                      | PathPart.index pexp => Compiler.expression fuel acc pexp
                    match step with
                    | .error err => Except.error err
                    | .ok acc1 =>
                      Except.ok (if decide (p.1 < numParts - 1)
                           then Compiler.emitCode acc1 .getTable else acc1))
                  st1 with
              | .error err => .error err
              | .ok st2 =>
                match Compiler.expression fuel st2 rhs with
                | .error err => .error err
                | .ok st3 => .ok (Compiler.emitCode st3 .setTable)
        | _ => .error (.panicked "internal error: entered unreachable code")
      | .arithmetic a =>
        match Compiler.expression fuel st lhs with
        | .error err => .error err
        | .ok st1 =>
          match Compiler.expression fuel st1 rhs with
          | .error err => .error err
          | .ok st2 =>
            .ok (Compiler.emitCode st2
              (match a with
               | .add => .add
               | .subtract => .subtract
               | .divide => .divide
               | .idivide => .idivide
               | .multiply => .multiply
               | .modulus => .modulus))
      | .comparison c =>
        match Compiler.expression fuel st lhs with
        | .error err => .error err
        | .ok st1 =>
          match Compiler.expression fuel st1 rhs with
          | .error err => .error err
          | .ok st2 =>
            .ok (Compiler.emitCode st2
              (match c with
               | .less => .cmpLess
               | .lessEqual => .cmpLEq
               | .equal => .cmpEq
               | .notEqual => .cmpNEq
               | .greaterEqual => .cmpGEq
               | .greater => .cmpGreater))
      | .boolean b =>
        match Compiler.expression fuel st lhs with
        | .error err => .error err
        | .ok st1 =>
          match Compiler.expression fuel st1 rhs with
          | .error err => .error err
          | .ok st2 =>
            .ok (Compiler.emitCode st2
              (match b with
               | .and => .cmpAnd
               | .or => .cmpOr))
      | .concat =>
        match Compiler.expression fuel st lhs with
        | .error err => .error err
        | .ok st1 =>
          match Compiler.expression fuel st1 rhs with
          | .error err => .error err
          | .ok st2 => .ok (Compiler.emitCode st2 .concat)
    | .array elems =>
      if elems.length > 255 then .error (.compiler .listInitializerTooLong)
      else
        match elems.foldlM (fun acc el =>
            (Compiler.expression fuel acc el : Except CompErr CompilerState)) st with
        | .error err => .error err
        | .ok st1 => .ok (Compiler.emitCode st1 (.createList elems.length))
    | .table entries =>
      if entries.length > 255 then .error (.compiler .mapInitializerTooLong)
      else
        match
          entries.foldlM
            (fun acc entry =>
              match entry with
              | TableEntry.mk k v =>
                match Compiler.expression fuel acc k with
                | .error err => Except.error err
                | .ok acc1 => (Compiler.expression fuel acc1 v :
                    Except CompErr CompilerState))
            st with
        | .error err => .error err
        | .ok st1 => .ok (Compiler.emitCode st1 (.createTable entries.length))
    | .literal l => Compiler.literal st l
    | .block stmts =>
      let st1 := Compiler.beginScope st
      let blockLen := stmts.length - 1
      match
        stmts.enum.foldlM
          (fun acc p =>
            let s := p.2
            let isExpr := s.isExpression
            let popFlag : Bool :=
              match s with
              | .expression _ (Expression.call _ _) => false
              | _ => true
            let isAssignment : Bool :=
              match s with
              | .expression _ (Expression.operation _ Operation.assignment _) => true
              | _ => false
            let compiled : Except CompErr CompilerState :=
              match s with
              | .letS _ ident value =>
                match value with
                | some vexp =>
                  match Compiler.expression fuel acc vexp with
                  | .error err => .error err
                  | .ok acc1 => Compiler.addLocal acc1 ident
                | none => Compiler.addLocal (Compiler.emitCode acc .loadUnit) ident
              | .expression _ e2 => Compiler.expression fuel acc e2
            match compiled with
            | .error err => Except.error err
            | .ok acc1 =>
              let acc2 :=
                if decide (p.1 < blockLen) && isExpr && popFlag && !isAssignment
                then Compiler.emitCode acc1 .pop else acc1
              let acc3 :=
                if decide (p.1 = blockLen) && isAssignment
                then Compiler.emitCode acc2 .loadUnit else acc2
              Except.ok acc3)
          st1 with
      | .error err => .error err
      | .ok st2 => .ok (Compiler.endScope st2)
    | .path ident parts =>
      match
        (match Compiler.resolveName st ident with
         | some (g, _) => Except.ok (some g, Compiler.emitCode st g)
         | none =>
           match Compiler.resolveModuleAlias st ident with
           | some al =>
             let st1 := Compiler.emitCode st (.getModule (al.moduleIndex % 256))
             match Compiler.constant st1 (.integer al.localIndex) with
             | .error err => .error err
             | .ok st2 => .ok ((none : Option OpCode), Compiler.emitCode st2 .getTable)
           | none =>
             match Compiler.resolveModule st ident with
             | some m =>
               .ok (some (OpCode.getModule (m % 256)),
                 Compiler.emitCode st (.getModule (m % 256)))
             | none => .error (CompErr.compiler (.nameNotFound ident))) with
      | .error err => .error err
      | .ok (getter, st1) =>
        parts.foldlM
          (fun acc part =>
            let step : Except CompErr CompilerState :=
              match part with
              | PathPart.ident pident =>
                match getter with
                | some (OpCode.getModule mi) =>
                  match acc.modules[mi]? with
                  | none => .error (.panicked "unwrap on None")
                  | some m =>
                    match m.locals.findIdx? (fun l => l == pident) with
                    | none => .error (.compiler (.nameNotFound pident))
                    | some li => Compiler.constant acc (.integer li)
                | _ => Compiler.constant acc (.str pident)
              | PathPart.index pexp => Compiler.expression fuel acc pexp
            match step with
            | .error err => Except.error err
            | .ok acc1 => Except.ok (Compiler.emitCode acc1 .getTable))
          st1
    | .call callee args =>
      match Compiler.expression fuel st callee with
      | .error err => .error err
      | .ok st1 =>
        if args.length > 255 then .error (.compiler .maxNumberOfArgsExceeded)
        else
          match args.foldlM (fun acc a =>
              (Compiler.expression fuel acc a : Except CompErr CompilerState)) st1 with
          | .error err => .error err
          | .ok st2 => .ok (Compiler.emitCode st2 (.call args.length))
    | .ifE condition blk elseB =>
      match Compiler.expression fuel st condition with
      | .error err => .error err
      | .ok st1 =>
        let p1 := Compiler.emitJump st1 (.jumpIfFalse 0)
        match Compiler.expression fuel p1.2 blk with
        | .error err => .error err
        | .ok st3 =>
          let p2 := Compiler.emitJump st3 (.jump 0)
          match Compiler.patchJump p2.2 p1.1 with
          | .error err => .error err
          | .ok st5 =>
            match
              (match elseB with
               | some els => Compiler.expression fuel st5 els
               | none => Except.ok (Compiler.emitCode st5 .loadUnit)) with
            | .error err => .error err
            | .ok st6 => Compiler.patchJump st6 p2.1

/-- `Compiler::statement` (`src/compiler.rs`) for the statement forms in
the model: `Let` compiles the initialiser (or a unit) and binds the
local; an expression statement compiles its expression. -/
def Compiler.statement (fuel : Nat) (st : CompilerState) (s : Statement) :
    Except CompErr CompilerState :=
  match s with
  | .letS _ ident value =>
    match value with
    | some vexp =>
      match Compiler.expression fuel st vexp with
      | .error err => .error err
      | .ok st1 => Compiler.addLocal st1 ident
    | none => Compiler.addLocal (Compiler.emitCode st .loadUnit) ident
  | .expression _ e2 => Compiler.expression fuel st e2

/-! ## Observation helpers and concrete inputs for the claims -/

/-- The stack slot of an upvalue cell, defined only for `Open` cells. -/
def openCellSlot (h : Heap) (id : Nat) : Option Nat :=
  match h.upvals[id]? with
  | some (Upvalue.open_ s) => some s
  | _ => none

/-- The slots of the open-upvalue list in model order (newest first);
`some` only when every listed cell exists and is `Open`. -/
def openSlots (h : Heap) (ids : List Nat) : Option (List Nat) :=
  ids.mapM (openCellSlot h)

/-- The open-upvalue slots in the source's `Vec` order (oldest first),
the order in which the spec states the descending-slot invariant. -/
def openSlotsVecOrder (vm : VmState) : Option (List Nat) :=
  (openSlots vm.heap vm.openUpvalues).map List.reverse

/-- A heap holding given tables and arrays plus a single closure (id 0)
over a one-argument prototype with the given code and constant pool —
the standard harness for single-opcode executions. -/
def mkOpHeap (tables : Array (List (Value × Value))) (arrays : Array (Array Value))
    (ops : List OpCode) (consts : List Value) : Heap :=
  ⟨tables, arrays, #[Closure.fromPrototype 0 (.mk ops consts 1 [] [])], #[]⟩

/-- A VM about to execute `ops` in a single root frame with
`slot_offset = 0` over the given stack. -/
def mkOpVm (tables : Array (List (Value × Value))) (arrays : Array (Array Value))
    (ops : List OpCode) (consts : List Value) (stack : Array Value) : VmState :=
  ⟨[⟨0, 0, 0⟩], stack, [], mkOpHeap tables arrays ops consts, []⟩

/-- C1: a one-argument prototype that loads a unit and returns. -/
def C1proto : Prototype := .mk [.loadUnit, .ret] [] 1 [] []

/-- C1: the VM as `Vm::execute_module` leaves it just before its
`self.call(closure, 1)` — the closure and its implicit unit argument
pushed, no frame yet. -/
def C1vm : VmState :=
  { frames := []
    stack := #[Value.closure 0, Value.unit]
    openUpvalues := []
    heap := { Heap.empty with closures := #[Closure.fromPrototype 0 C1proto] }
    modules := [] }

/-- C2: compilation state inside a function `f x` — resolver locals
`[f, x]` at depth 1, as `Compiler::function` sets them up. -/
def C2st : CompilerState :=
  { code := [], constants := []
    resolver := { locals := [⟨"f", 1, false⟩, ⟨"x", 1, false⟩], depth := 1, baseDepth := 1 }
    moduleAliases := [], modules := [] }

/-- C2: a block whose final (and only) element is the assignment
`x = 5`. -/
def C2block : Expression :=
  .block [.expression 1 (.operation (.path "x" []) .assignment (.literal (.integer 5)))]

/-- C2: the VM entering the compiled block with the frame's two locals
`f` (the closure) and `x` on the stack — block entry height 2. -/
def C2vm : VmState :=
  mkOpVm #[] #[] [.loadInt 5, .setLocal 1, .loadUnit] [] #[Value.closure 0, Value.integer 7]

/-- C3: a compilation state whose code is a `Jump` placeholder pair
followed by 261 opcodes, so the patched distance is
`263 − 2 − 0 = 261 = 0x105`. -/
def C3patchSt : CompilerState :=
  { code := [OpCode.jump 0, OpCode.extraArg 0] ++ List.replicate 261 OpCode.pop
    constants := [], resolver := ScopeResolver.new, moduleAliases := [], modules := [] }

/-- C3: bytecode whose `Jump 2` is followed by `ExtraArg 1` — a 16-bit
displacement of `2 + 256 = 258` under the claimed semantics, which would
jump past the end of the code; taking only the low byte lands on the
`LoadTrue` at index 3. -/
def C3vm : VmState :=
  mkOpVm #[] #[] [.jump 2, .extraArg 1, .loadFalse, .loadTrue, .ret] [] #[Value.closure 0, Value.unit]

/-- C4: child prototype capturing parent locals 3 then 2 (the order of
first use in a body such as `fn -> b + a`). -/
def C4child0 : Prototype := .mk [.ret] [] 1 [⟨3, true⟩, ⟨2, true⟩] []

/-- C4: child prototype capturing parent local 3 (`fn -> b`). -/
def C4child1 : Prototype := .mk [.ret] [] 1 [⟨3, true⟩] []

/-- C4: run both `Closure` opcodes and stop. -/
def C4protoA : Prototype := .mk [.closure 0, .closure 1, .ret] [] 1 [] [C4child0, C4child1]

/-- C4: the same captures followed by `CloseUpvalue 3`, which should
close every open cell at slot ≥ 3. -/
def C4protoB : Prototype := .mk [.closure 0, .closure 1, .closeUpvalue 3, .ret] [] 1 [] [C4child0, C4child1]

/-- C4: a frame over four stack slots (closure, argument and the two
captured locals `a`, `b` at slots 2 and 3). -/
def C4vm (p : Prototype) : VmState :=
  { frames := [⟨0, 0, 0⟩]
    stack := #[Value.closure 0, Value.unit, Value.integer 10, Value.integer 11]
    openUpvalues := []
    heap := { Heap.empty with closures := #[Closure.fromPrototype 0 p] }
    modules := [] }

/-- C5: `GetTable` on the empty array with integer key 0 — out of
range. -/
def C5arrayVm : VmState :=
  mkOpVm #[] #[#[]] [.getTable] [] #[Value.array 0, Value.integer 0]

/-- C5: the heap of the generic table-lookup theorem: one table with the
given entries. -/
def C5heap (entries : List (Value × Value)) : Heap :=
  mkOpHeap #[entries] #[] [.getTable] []

/-- C5: `GetTable` over a table with the given entries and key, on top
of an arbitrary stack base. -/
def C5tableVm (entries : List (Value × Value)) (base : Array Value) (key : Value) : VmState :=
  ⟨[⟨0, 0, 0⟩], (base.push (.table 0)).push key, [], C5heap entries, []⟩

/-- C5: `GetTable` over an arbitrary array and integer key. -/
def C5arrVm (arr : Array Value) (base : Array Value) (i : Int) : VmState :=
  mkOpVm #[] #[arr] [.getTable] [] ((base.push (.array 0)).push (.integer i))

/-- C6: compilation state inside `let main () = …` — resolver locals
`[main, ""]` (the function itself and the implicit unit argument). -/
def C6st : CompilerState :=
  { code := [], constants := []
    resolver := { locals := [⟨"main", 1, false⟩, ⟨"", 1, false⟩], depth := 1, baseDepth := 1 }
    moduleAliases := [], modules := [] }

/-- C6: the body of `let main () = 1 + "a"`. -/
def C6expr : Expression :=
  .operation (.literal (.integer 1)) (.arithmetic .add) (.literal (.str "a"))

/-- C6: the compiled `main` (body followed by the `Return` that
`Compiler::function` appends) about to run. -/
def C6vm : VmState :=
  mkOpVm #[] #[] [.loadInt 1, .loadConst 0, .add, .ret] [.str "a"] #[Value.closure 0, Value.unit]

/-- C7: `1 / 0` on integers. -/
def C7vm : VmState :=
  mkOpVm #[] #[] [.loadInt 1, .loadInt 0, .divide, .ret] [] #[Value.closure 0, Value.unit]

/-- C7: a single `Divide` over the given two stack operands. -/
def C7divVm (base : Array Value) (lhs rhs : Value) : VmState :=
  mkOpVm #[] #[] [.divide] [] ((base.push lhs).push rhs)

/-- C7: a single `IDivide` over the given two stack operands. -/
def C7idivVm (base : Array Value) (lhs rhs : Value) : VmState :=
  mkOpVm #[] #[] [.idivide] [] ((base.push lhs).push rhs)

/-- C8: a dummy prototype shared (same `Rc` pointer, id 7) by two
distinct closure objects. -/
def C8proto : Prototype := .mk [.ret] [] 1 [] []

/-- C8: two distinct empty tables, two distinct arrays with equal
contents, and two distinct closure objects over the same prototype
pointer. -/
def C8heap : Heap :=
  { tables := #[[], []]
    arrays := #[#[Value.integer 1], #[Value.integer 1]]
    closures := #[⟨.prototype 7 C8proto, [], 0⟩, ⟨.prototype 7 C8proto, [], 0⟩]
    upvals := #[] }

/-- C9: a single `LoadInt k` about to execute. -/
def C9loadIntVm (k : Nat) (base : Array Value) : VmState :=
  mkOpVm #[] #[] [.loadInt k] [] base

/-- C9: a single `LoadConst i` over the given pool. -/
def C9loadConstVm (i : Nat) (consts : List Value) (base : Array Value) : VmState :=
  mkOpVm #[] #[] [.loadConst i] consts base

/-- C10: a single comparison opcode over `Integer i` (lhs) and
`Number x` (rhs). -/
def C10vm (op : OpCode) (i : Int) (x : F64) (base : Array Value) : VmState :=
  mkOpVm #[] #[] [op] [] ((base.push (.integer i)).push (.number x))

/-- Discriminates the recoverable `Err(RuntimeError)` outcome from every
other outcome (in particular from a panic). -/
def isRuntimeError : Except VmErr VmState → Bool
  | .error (.runtime _) => true
  | _ => false

/-- C1 witness: a nested frame (slot offset 1, one enclosing frame)
about to execute `Return` over the stack `[unit, true, 3]`. -/
def C1retVm : VmState :=
  { frames := [⟨0, 0, 1⟩, ⟨0, 5, 0⟩]
    stack := #[Value.unit, Value.bool true, Value.integer 3]
    openUpvalues := []
    heap := { Heap.empty with closures := #[Closure.fromPrototype 0 (.mk [.ret] [] 1 [] [])] }
    modules := [] }

/-- C1 witness: a single root frame about to execute `Return`. -/
def C1rootVm : VmState :=
  { frames := [⟨0, 0, 0⟩]
    stack := #[Value.closure 0, Value.unit]
    openUpvalues := []
    heap := { Heap.empty with closures := #[Closure.fromPrototype 0 (.mk [.ret] [] 1 [] [])] }
    modules := [] }

/-- C9 witness: the compiler state `Compiler::constant` produces for the
literal 300 starting from `C6st`. -/
def C9stA : CompilerState :=
  { C6st with code := [OpCode.loadConst 0], constants := [Value.integer 300] }

/-! ## Shared lemmas -/

/-- Writing one upvalue cell leaves every other cell unchanged. -/
theorem setUpval_getElem?_ne (h : Heap) (id id' : Nat) (u : Upvalue) (hne : id ≠ id') :
    (h.setUpval id u).upvals[id']? = h.upvals[id']? := by
  simp only [Heap.setUpval, Array.setD]
  split
  · exact Array.getElem?_set_ne _ _ _ hne
  · rfl

/-- Unfolding `openSlots` over a cons cell. -/
theorem openSlots_cons (h : Heap) (id : Nat) (ids : List Nat) :
    openSlots h (id :: ids) =
      (openCellSlot h id).bind (fun s => (openSlots h ids).map (fun l => s :: l)) := by
  simp only [openSlots, List.mapM_cons]
  cases openCellSlot h id with
  | none => rfl
  | some s => cases hm : ids.mapM (openCellSlot h) <;> rfl

/-- Writing one upvalue cell does not change the slot read of another. -/
theorem openCellSlot_setUpval_ne (h : Heap) (id id' : Nat) (u : Upvalue) (hne : id ≠ id') :
    openCellSlot (h.setUpval id u) id' = openCellSlot h id' := by
  simp only [openCellSlot, setUpval_getElem?_ne h id id' u hne]

/-- Writing a cell outside a list leaves the list's slots unchanged. -/
theorem openSlots_setUpval_notMem (h : Heap) (ids : List Nat) (id : Nat) (u : Upvalue)
    (hmem : id ∉ ids) : openSlots (h.setUpval id u) ids = openSlots h ids := by
  induction ids with
  | nil => rfl
  | cons a as ih =>
    rw [openSlots_cons, openSlots_cons,
      openCellSlot_setUpval_ne h id a u (fun he => hmem (he ▸ List.mem_cons_self a as)),
      ih (fun hin => hmem (List.mem_cons_of_mem a hin))]

/-- Specification of the `Vm::close_upvalues` scan on a well-formed open
list: when the list splits into a newer block of open cells at slots
`≥ last` (within the stack) followed by an older block at slots `< last`,
with no duplicate cells, the scan closes exactly the newer block and
keeps the older one intact. -/
theorem closeUpvaluesGo_spec (stack : Array Value) :
    ∀ (hiIds : List Nat) (h : Heap) (loIds : List Nat) (last : Nat)
      (hiSlots loSlots : List Nat),
    openSlots h hiIds = some hiSlots →
    openSlots h loIds = some loSlots →
    (∀ s ∈ hiSlots, last ≤ s ∧ s < stack.size) →
    (∀ s ∈ loSlots, s < last) →
    (hiIds ++ loIds).Nodup →
    ∃ h', closeUpvaluesGo stack h (hiIds ++ loIds) last = .ok (loIds, h') ∧
          openSlots h' loIds = some loSlots := by
  intro hiIds
  induction hiIds with
  | nil =>
    intro h loIds last hiSlots loSlots _ hlo _ hloLt _
    refine ⟨h, ?_, hlo⟩
    cases loIds with
    | nil => rfl
    | cons id rest =>
      rw [openSlots_cons] at hlo
      match hcell : h.upvals[id]? with
      | some (Upvalue.open_ s) =>
        have hoc : openCellSlot h id = some s := by simp [openCellSlot, hcell]
        rw [hoc, Option.some_bind] at hlo
        have hs : s ∈ loSlots := by
          cases hmap : (openSlots h rest) with
          | none => rw [hmap] at hlo; simp at hlo
          | some l =>
            rw [hmap] at hlo
            simp only [Option.map_some'] at hlo
            rw [← Option.some.inj hlo]
            exact List.mem_cons_self _ _
        simp only [List.nil_append, closeUpvaluesGo, hcell]
        rw [if_pos (hloLt s hs)]
      | some (Upvalue.closed v) =>
        have hoc : openCellSlot h id = none := by simp [openCellSlot, hcell]
        rw [hoc] at hlo; simp at hlo
      | none =>
        have hoc : openCellSlot h id = none := by simp [openCellSlot, hcell]
        rw [hoc] at hlo; simp at hlo
  | cons id hiIds' ih =>
    intro h loIds last hiSlots loSlots hhi hlo hhiB hloLt hnd
    rw [openSlots_cons] at hhi
    match hcell : h.upvals[id]? with
    | none =>
      have hoc : openCellSlot h id = none := by simp [openCellSlot, hcell]
      rw [hoc] at hhi; simp at hhi
    | some (Upvalue.closed v) =>
      have hoc : openCellSlot h id = none := by simp [openCellSlot, hcell]
      rw [hoc] at hhi; simp at hhi
    | some (Upvalue.open_ s) =>
      have hoc : openCellSlot h id = some s := by simp [openCellSlot, hcell]
      rw [hoc, Option.some_bind] at hhi
      cases hmap : (openSlots h hiIds') with
      | none => rw [hmap] at hhi; simp at hhi
      | some hiSlots' =>
        rw [hmap] at hhi
        simp only [Option.map_some'] at hhi
        have hslots : s :: hiSlots' = hiSlots := Option.some.inj hhi
        have hsB := hhiB s (hslots ▸ List.mem_cons_self _ _)
        have hndc := List.nodup_cons.mp hnd
        have hidlo : id ∉ loIds := fun hin => hndc.1 (List.mem_append_right _ hin)
        have hidhi : id ∉ hiIds' := fun hin => hndc.1 (List.mem_append_left _ hin)
        have hv : stack[s]? = some (stack.get ⟨s, hsB.2⟩) := Array.getElem?_lt _ hsB.2
        obtain ⟨h', hrun, hlo'⟩ := ih (h.setUpval id (.closed (stack.get ⟨s, hsB.2⟩))) loIds last
          hiSlots' loSlots
          (by rw [openSlots_setUpval_notMem _ _ _ _ hidhi]; exact hmap)
          (by rw [openSlots_setUpval_notMem _ _ _ _ hidlo]; exact hlo)
          (fun t ht => hhiB t (hslots ▸ List.mem_cons_of_mem _ ht))
          hloLt hndc.2
        refine ⟨h', ?_, hlo'⟩
        simp only [List.cons_append, closeUpvaluesGo, hcell]
        rw [if_neg (Nat.not_lt.mpr hsB.1), hv]
        exact hrun

/-- A successful `findIdx?` returns an index whose element satisfies the
predicate. -/
theorem findIdx?_spec (l : List Value) (p : Value → Bool) (i : Nat)
    (h : l.findIdx? p = some i) : ∃ x, l[i]? = some x ∧ p x = true := by
  induction l generalizing i with
  | nil => simp [List.findIdx?] at h
  | cons a as ih =>
    rw [List.findIdx?_cons] at h
    by_cases hp : p a
    · rw [if_pos hp] at h
      rw [← Option.some.inj h]
      exact ⟨a, List.getElem?_cons_zero, hp⟩
    · rw [if_neg hp, List.findIdx?_succ] at h
      cases hfi : List.findIdx? p as with
      | none => rw [hfi] at h; exact absurd h (by simp)
      | some j =>
        rw [hfi] at h
        simp only [Option.map_some'] at h
        obtain ⟨x, hx, hpx⟩ := ih j hfi
        refine ⟨x, ?_, hpx⟩
        rw [← Option.some.inj h]
        simpa using hx

/-- Only an equal integer value is `PartialEq`-equal to an integer
constant. -/
theorem constValueEq_integer (v : Value) (n : Int)
    (h : Compiler.constValueEq v (.integer n) = true) : v = .integer n := by
  cases v <;> simp [Compiler.constValueEq] at h
  rw [h]

/-- The entry half of the call convention: `Vm::call` on a stack of the
shape `pre ++ callee :: args` installs the frame at
`slot_offset = |pre|`, the index of the callee, with the arguments in the
slots just above it. -/
theorem vmCallEntry (fuel : Nat) (vm : VmState) (cid : Nat) (cl : Closure) (proto : Prototype)
    (pre : List Value) (calleeVal : Value) (args : List Value)
    (hstack : vm.stack.toList = pre ++ calleeVal :: args)
    (hcl : vm.heap.closures[cid]? = some cl)
    (hfn : cl.function.prototype? = some proto)
    (hna : proto.numArgs = args.length)
    (hframes : vm.frames.length ≠ usizeMax) :
    vm.stack[pre.length]? = some calleeVal ∧
    (∀ j, j < args.length → vm.stack[pre.length + 1 + j]? = args[j]?) ∧
    callClosure fuel vm cid args.length =
      run fuel { vm with frames := ⟨cid, 0, pre.length⟩ :: vm.frames } := by
  have hlen : vm.stack.size = pre.length + 1 + args.length := by
    have h1 : vm.stack.size = vm.stack.toList.length := rfl
    rw [h1, hstack]
    simp [List.length_append]
    omega
  refine ⟨?_, ?_, ?_⟩
  · rw [show vm.stack[pre.length]? = vm.stack.toList[pre.length]? from rfl, hstack,
      List.getElem?_append_right (Nat.le_refl _)]
    simp
  · intro j hj
    rw [show vm.stack[pre.length + 1 + j]? = vm.stack.toList[pre.length + 1 + j]? from rfl,
      hstack, List.getElem?_append_right (by omega)]
    have harith : pre.length + 1 + j - pre.length = j + 1 := by omega
    rw [harith, List.getElem?_cons_succ]
  · simp only [callClosure, hcl, hfn]
    rw [if_neg (by omega), if_neg hframes]
    have harith : vm.stack.size - args.length - 1 = pre.length := by omega
    rw [harith]

set_option maxHeartbeats 1000000 in
/-- The return half of the call convention for a non-root frame: one
`Return` step pops the result, closes exactly the open upvalues at slots
`≥ slot_offset` (given a well-formed open list), truncates the stack to
`slot_offset` and pushes the result back — final height
`slot_offset + 1`. -/
theorem vmReturnNonRoot (fuel cid ip so : Nat) (f2 : Frame) (restF' : List Frame)
    (stack : Array Value) (hiIds loIds : List Nat) (heap : Heap) (mods : List Module)
    (cl : Closure) (pid : Nat) (proto : Prototype) (result : Value)
    (hiSlots loSlots : List Nat)
    (hcl : heap.closures[cid]? = some cl)
    (hfn : cl.function = .prototype pid proto)
    (hcode : proto.code[ip]? = some .ret)
    (hres : stack.back? = some result)
    (hsz : so + 1 ≤ stack.size)
    (hhi : openSlots heap hiIds = some hiSlots)
    (hlo : openSlots heap loIds = some loSlots)
    (hhiB : ∀ s ∈ hiSlots, so ≤ s ∧ s < stack.size - 1)
    (hloLt : ∀ s ∈ loSlots, s < so)
    (hnd : (hiIds ++ loIds).Nodup) :
    ∃ heap',
      run (fuel + 1) ⟨⟨cid, ip, so⟩ :: f2 :: restF', stack, hiIds ++ loIds, heap, mods⟩ =
        .ok ⟨f2 :: restF', (stack.pop.extract 0 so).push result, loIds, heap', mods⟩ ∧
      openSlots heap' loIds = some loSlots ∧
      ((stack.pop.extract 0 so).push result).size = so + 1 := by
  have hlt : ip < proto.code.length := by
    by_contra hc
    rw [List.getElem?_eq_none (by omega)] at hcode
    exact Option.noConfusion hcode
  obtain ⟨heap', hgo, hlo'⟩ := closeUpvaluesGo_spec stack.pop hiIds heap loIds so
    hiSlots loSlots hhi hlo
    (by intro s hs; have := hhiB s hs; rw [Array.size_pop]; omega)
    hloLt hnd
  refine ⟨heap', ?_, hlo', ?_⟩
  · simp only [run, hcl, hfn]
    rw [if_neg (by omega)]
    simp only [Nat.add_sub_cancel, hcode]
    simp only [List.length_cons, VmState.popV]
    rw [if_neg (by omega)]
    rw [hres]
    simp only [hgo]
    rfl
  · simp only [Array.size_push, Array.size_extract, Array.size_pop]
    omega

set_option maxHeartbeats 1000000 in
/-- The return of the topmost (root) frame terminates `run` leaving the
stack, the open-upvalue list and the heap untouched; only the
instruction pointer has moved past the `Return`. -/
theorem vmReturnRoot (fuel cid ip so : Nat) (stack : Array Value)
    (openUp : List Nat) (heap : Heap) (mods : List Module)
    (cl : Closure) (pid : Nat) (proto : Prototype)
    (hcl : heap.closures[cid]? = some cl)
    (hfn : cl.function = .prototype pid proto)
    (hcode : proto.code[ip]? = some .ret) :
    run (fuel + 1) ⟨[⟨cid, ip, so⟩], stack, openUp, heap, mods⟩ =
      .ok ⟨[⟨cid, ip + 1, so⟩], stack, openUp, heap, mods⟩ := by
  have hlt : ip < proto.code.length := by
    by_contra hc
    rw [List.getElem?_eq_none (by omega)] at hcode
    exact Option.noConfusion hcode
  simp only [run, hcl, hfn]
  rw [if_neg (by omega)]
  simp only [Nat.add_sub_cancel, hcode]
  rfl

/-! ## The claims -/

/-- C1 counterexample: the call `execute_module` makes (the closure and
its implicit unit argument pushed on an empty stack, `slot_offset = 0`)
returns normally, yet the final stack holds 3 values — the closure, the
argument and the result — not `slot_offset + 1 = 1` as the claim states,
and the root frame is still in place: the topmost frame's `Return`
neither closes upvalues nor truncates nor pushes. -/
theorem C1_counterexample :
    (callClosure 9 C1vm 0 1).toOption.map (fun vm => vm.stack.size) = some 3 ∧
    (callClosure 9 C1vm 0 1).toOption.map (fun vm => vm.frames.length) = some 1 :=
  ⟨rfl, rfl⟩

/-- C1 (amended): (entry) `Vm::call` on a stack `pre ++ callee :: args`
installs the frame at `slot_offset = |pre|`, where the stack holds the
callee with its arguments just above it; (non-root return) a `Return`
with an enclosing frame, a stack of height at least `slot_offset + 1`
and a well-formed open-upvalue list (all cells open and distinct, the
cells at slots `≥ slot_offset` newer than the rest and within the live
stack) closes exactly the open upvalues at slots `≥ slot_offset`,
truncates the stack to `slot_offset` and pushes the single result, so
the final height is `slot_offset + 1`; (root return) the topmost frame's
`Return` terminates `run` leaving stack, upvalues and heap untouched. -/
theorem C1_call_return_discipline :
    (∀ (fuel : Nat) (vm : VmState) (cid : Nat) (cl : Closure) (proto : Prototype)
       (pre : List Value) (calleeVal : Value) (args : List Value),
       vm.stack.toList = pre ++ calleeVal :: args →
       vm.heap.closures[cid]? = some cl →
       cl.function.prototype? = some proto →
       proto.numArgs = args.length →
       vm.frames.length ≠ usizeMax →
       vm.stack[pre.length]? = some calleeVal ∧
       (∀ j, j < args.length → vm.stack[pre.length + 1 + j]? = args[j]?) ∧
       callClosure fuel vm cid args.length =
         run fuel { vm with frames := ⟨cid, 0, pre.length⟩ :: vm.frames }) ∧
    (∀ (fuel cid ip so : Nat) (f2 : Frame) (restF' : List Frame)
       (stack : Array Value) (hiIds loIds : List Nat) (heap : Heap) (mods : List Module)
       (cl : Closure) (pid : Nat) (proto : Prototype) (result : Value)
       (hiSlots loSlots : List Nat),
       heap.closures[cid]? = some cl →
       cl.function = .prototype pid proto →
       proto.code[ip]? = some .ret →
       stack.back? = some result →
       so + 1 ≤ stack.size →
       openSlots heap hiIds = some hiSlots →
       openSlots heap loIds = some loSlots →
       (∀ s ∈ hiSlots, so ≤ s ∧ s < stack.size - 1) →
       (∀ s ∈ loSlots, s < so) →
       (hiIds ++ loIds).Nodup →
       ∃ heap',
         run (fuel + 1) ⟨⟨cid, ip, so⟩ :: f2 :: restF', stack, hiIds ++ loIds, heap, mods⟩ =
           .ok ⟨f2 :: restF', (stack.pop.extract 0 so).push result, loIds, heap', mods⟩ ∧
         openSlots heap' loIds = some loSlots ∧
         ((stack.pop.extract 0 so).push result).size = so + 1) ∧
    (∀ (fuel cid ip so : Nat) (stack : Array Value)
       (openUp : List Nat) (heap : Heap) (mods : List Module)
       (cl : Closure) (pid : Nat) (proto : Prototype),
       heap.closures[cid]? = some cl →
       cl.function = .prototype pid proto →
       proto.code[ip]? = some .ret →
       run (fuel + 1) ⟨[⟨cid, ip, so⟩], stack, openUp, heap, mods⟩ =
         .ok ⟨[⟨cid, ip + 1, so⟩], stack, openUp, heap, mods⟩) :=
  ⟨vmCallEntry, vmReturnNonRoot, vmReturnRoot⟩

/-- C1 witness: the three parts of `C1_call_return_discipline`
instantiated — the `execute_module`-shaped call, a nested frame's
`Return` over the stack `[unit, true, 3]` at `slot_offset = 1`, and a
root frame's `Return`. -/
theorem C1_call_return_discipline_witness :
    (C1vm.stack[0]? = some (Value.closure 0) ∧
     (∀ j, j < 1 → C1vm.stack[0 + 1 + j]? = [Value.unit][j]?) ∧
     callClosure 9 C1vm 0 1 = run 9 { C1vm with frames := [⟨0, 0, 0⟩] }) ∧
    (∃ heap',
      run 1 C1retVm =
        .ok ⟨[⟨0, 5, 0⟩], (C1retVm.stack.pop.extract 0 1).push (Value.integer 3), [], heap', []⟩ ∧
      openSlots heap' [] = some [] ∧
      ((C1retVm.stack.pop.extract 0 1).push (Value.integer 3)).size = 1 + 1) ∧
    run 1 C1rootVm = .ok ⟨[⟨0, 1, 0⟩], C1rootVm.stack, [], C1rootVm.heap, []⟩ :=
  ⟨C1_call_return_discipline.1 9 C1vm 0 (Closure.fromPrototype 0 C1proto) C1proto
      [] (Value.closure 0) [Value.unit] rfl rfl rfl rfl (by decide),
   C1_call_return_discipline.2.1 0 0 0 1 ⟨0, 5, 0⟩ [] C1retVm.stack [] []
      C1retVm.heap [] (Closure.fromPrototype 0 (.mk [.ret] [] 1 [] [])) 0
      (.mk [.ret] [] 1 [] []) (Value.integer 3) [] []
      rfl rfl rfl rfl (by decide) rfl rfl (by simp) (by simp) (by simp),
   C1_call_return_discipline.2.2 0 0 0 0 C1rootVm.stack [] C1rootVm.heap []
      (Closure.fromPrototype 0 (.mk [.ret] [] 1 [] [])) 0 (.mk [.ret] [] 1 [] [])
      rfl rfl rfl⟩

/-- C2: compiling the block whose final element is the assignment
`x = 5` (inside a function with locals `[f, x]`) emits
`[LoadInt 5, SetLocal 1, LoadUnit]` — `SetLocal` leaves the assigned
value on the stack and the block lowering pushes an extra unit — so
executing the block from entry height 2 ends at height 4: two values
beyond entry, not the single value the claim requires. -/
theorem C2_block_final_assignment_double_push :
    (Compiler.expression 9 C2st C2block).map (fun st => st.code) =
      .ok [.loadInt 5, .setLocal 1, .loadUnit] ∧
    C2vm.stack.size = 2 ∧
    (run 9 C2vm).toOption.map (fun vm => vm.stack.size) = some 4 := ⟨rfl, rfl, rfl⟩

set_option maxRecDepth 8192 in
/-- C3: `Compiler::patch_jump` does split the 16-bit distance 261 into a
low byte 5 in the jump opcode and a high byte 1 in the following
`ExtraArg` — but the VM ignores the high byte: executing `Jump 2`
followed by `ExtraArg 1` (claimed displacement 258, past the end of the
code) lands 2 opcodes ahead on the `LoadTrue`, and the checked-in
`Vm::run` cannot dispatch an `ExtraArg` at all. -/
theorem C3_jump_ignores_extra_arg_high_byte :
    (Compiler.patchJump C3patchSt 0).map (fun st => st.code.take 2) =
      .ok [.jump 5, .extraArg 1] ∧
    (run 9 C3vm).toOption.map (fun vm => vm.stack.back?) = some (some (.bool true)) ∧
    run 9 (mkOpVm #[] #[] [.extraArg 1] [] #[]) =
      .error (.panicked "no dispatch arm for ExtraArg") := ⟨rfl, rfl, rfl⟩

/-- C4: after two `Closure` opcodes whose children capture parent local
slots in the orders `3, 2` and then `3`, the open-upvalue list (in the
source's `Vec` order) is `[3, 2, 3]` — two distinct `Open` cells share
slot 3 (capture deduplication failed) and the list is not strictly
descending; a subsequent `CloseUpvalue` at slot 3 then stops early,
leaving the list `[3, 2]`: an `Open` cell at slot 3 survives the very
close that should have removed every cell at slot ≥ 3. -/
theorem C4_open_upvalue_list_invariant_broken :
    (run 9 (C4vm C4protoA)).toOption.map openSlotsVecOrder = some (some [3, 2, 3]) ∧
    (run 9 (C4vm C4protoB)).toOption.map openSlotsVecOrder = some (some [3, 2]) := ⟨rfl, rfl⟩

/-- C5 counterexample: `GetTable` on an empty array with integer key 0
aborts with the Rust panic `"Out of bounds"`; it does not fail with a
(recoverable) `RuntimeError` as the claim states. -/
theorem C5_counterexample :
    run 9 C5arrayVm = .error (.panicked "Out of bounds") ∧
    isRuntimeError (run 9 C5arrayVm) = false := ⟨rfl, rfl⟩

/-- C5 (amended): `GetTable` pops the key and then the container; for
every table and every key absent from it (the lookup misses) the pushed
result is unit, and for every array indexed by an integer key whose
`as usize` image is out of range execution aborts with the
`"Out of bounds"` panic (not a recoverable runtime error). -/
theorem C5_get_table_semantics :
    (∀ (fuel : Nat) (entries : List (Value × Value)) (key : Value),
       tableLookupWith (valueEq (C5heap entries) (fuel + 1)) entries key = some none →
       run (fuel + 2) (C5tableVm entries #[] key) =
         .ok ⟨[⟨0, 2, 0⟩], #[.unit], [], C5heap entries, []⟩) ∧
    (∀ (fuel : Nat) (arr : Array Value) (i : Int),
       arr.size ≤ usizeOfI64 i →
       run (fuel + 2) (C5arrVm arr #[] i) = .error (.panicked "Out of bounds")) := by
  constructor
  · intro fuel entries key h
    have step : run (fuel + 2) (C5tableVm entries #[] key) =
        (match tableLookupWith (valueEq (C5heap entries) (fuel + 1)) entries key with
         | none => .error .outOfFuel
         | some none =>
           run (fuel + 1) (VmState.pushV ⟨[⟨0, 1, 0⟩], #[], [], C5heap entries, []⟩ .unit)
         | some (some v) =>
           run (fuel + 1) (VmState.pushV ⟨[⟨0, 1, 0⟩], #[], [], C5heap entries, []⟩ v)) := rfl
    rw [step, h]
    rfl
  · intro fuel arr i h
    have step : run (fuel + 2) (C5arrVm arr #[] i) =
        (if usizeOfI64 i ≥ arr.size then (.error (.panicked "Out of bounds"))
         else match arr[usizeOfI64 i]? with
           | none => .error (.panicked "index out of bounds")
           | some v =>
             run (fuel + 1)
               (VmState.pushV ⟨[⟨0, 1, 0⟩], #[], [], mkOpHeap #[] #[arr] [.getTable] [], []⟩ v)) := rfl
    rw [step, if_pos h]

/-- C5 witness: the empty table misses the key `"k"` and `GetTable`
pushes unit; the empty array is out of range at key 0 and `GetTable`
panics. -/
theorem C5_get_table_semantics_witness :
    (tableLookupWith (valueEq (C5heap []) 1) [] (.str "k") = some none ∧
     run 2 (C5tableVm [] #[] (.str "k")) = .ok ⟨[⟨0, 2, 0⟩], #[.unit], [], C5heap [], []⟩) ∧
    ((#[] : Array Value).size ≤ usizeOfI64 0 ∧
     run 2 (C5arrVm #[] #[] 0) = .error (.panicked "Out of bounds")) :=
  ⟨⟨rfl, C5_get_table_semantics.1 0 [] (.str "k") rfl⟩,
   ⟨by decide, C5_get_table_semantics.2 0 #[] 0 (by decide)⟩⟩

/-- C6: the body of `let main () = 1 + "a"` compiles to
`[LoadInt 1, LoadConst "a", Add]`, and executing it aborts with the Rust
panic of the `Add` arm's catch-all (`panic!("invalid values: …")`) — the
`RuntimeError` enum has no arithmetic-on-non-numeric kind at all, so no
recoverable runtime error is raised and no post-error state exists. -/
theorem C6_add_non_numeric_panics :
    (Compiler.expression 9 C6st C6expr).map (fun st => (st.code, st.constants)) =
      .ok ([.loadInt 1, .loadConst 0, .add], [.str "a"]) ∧
    run 9 C6vm = .error (.panicked "invalid values") ∧
    isRuntimeError (run 9 C6vm) = false := ⟨rfl, rfl, rfl⟩

/-- C7 counterexample: `1 / 0` on integers aborts with Rust's
division-by-zero panic, not with a recoverable `RuntimeError` as the
claim states. -/
theorem C7_counterexample :
    run 9 C7vm = .error (.panicked "attempt to divide by zero") ∧
    isRuntimeError (run 9 C7vm) = false := ⟨rfl, rfl⟩

/-- C7 (amended): `Divide` and `IDivide` on integer operands with a zero
right operand abort with Rust's division-by-zero panic (no recoverable
runtime error), while `Divide` on two floats never fails and pushes the
IEEE quotient — in particular a finite float divided by zero yields
`NaN` (for `0/0`) or `±infinity`, never an error. -/
theorem C7_division_semantics :
    (∀ (fuel : Nat) (l : Int),
       run (fuel + 2) (C7divVm #[] (.integer l) (.integer 0)) =
         .error (.panicked "attempt to divide by zero")) ∧
    (∀ (fuel : Nat) (l : Int),
       run (fuel + 2) (C7idivVm #[] (.integer l) (.integer 0)) =
         .error (.panicked "attempt to divide by zero")) ∧
    (∀ (fuel : Nat) (x y : F64),
       run (fuel + 2) (C7divVm #[] (.number x) (.number y)) =
         .ok ⟨[⟨0, 2, 0⟩], #[.number (F64.div x y)], [], mkOpHeap #[] #[] [.divide] [], []⟩) ∧
    (∀ q : ℚ, F64.div (.finite q) (.finite 0) =
       if q = 0 then .nan else if 0 < q then .inf else .negInf) :=
  ⟨fun _ _ => rfl, fun _ _ => rfl, fun _ _ _ => rfl, fun q => by simp [F64.div]⟩

/-- C8: Rust's `Rc` equality dereferences, so two *distinct* heap
objects with element-wise-equal contents compare equal: the two empty
tables, the two `[1]` arrays and the two closure objects sharing one
prototype pointer are all `PartialEq`-equal — equality on shared
containers is structural, not identity-by-address (while `Hash` uses
`Rc::as_ptr`, so hashing does not mirror this equality). -/
theorem C8_container_equality_is_structural :
    valueEq C8heap 9 (.table 0) (.table 1) = some true ∧
    valueEq C8heap 9 (.array 0) (.array 1) = some true ∧
    valueEq C8heap 9 (.closure 0) (.closure 1) = some true := ⟨rfl, rfl, rfl⟩

/-- C9: a literal integer `n` with `0 ≤ n ≤ 255` compiles to the single
opcode `LoadInt n`; a literal `n > 255` compiles (when the pool accepts
it) to `LoadConst i` with `constants[i] = Integer n` — whether `n` was
deduplicated against an existing pool entry or freshly appended; and
executing `LoadInt k` pushes `Integer k` while executing `LoadConst i`
pushes `constants[i]`. -/
theorem C9_literal_integer_compilation :
    (∀ (n : Int) (st : CompilerState), 0 ≤ n → n ≤ 255 →
       Compiler.constant st (.integer n) = .ok (Compiler.emitCode st (.loadInt n.toNat))) ∧
    (∀ (n : Int) (st st' : CompilerState), 255 < n →
       Compiler.constant st (.integer n) = .ok st' →
       ∃ i, st'.code = st.code ++ [.loadConst i] ∧ st'.constants[i]? = some (.integer n)) ∧
    (∀ (fuel k : Nat),
       run (fuel + 2) (C9loadIntVm k #[]) =
         .ok ⟨[⟨0, 2, 0⟩], #[.integer k], [], mkOpHeap #[] #[] [.loadInt k] [], []⟩) ∧
    (∀ (fuel i : Nat) (consts : List Value) (v : Value), consts[i]? = some v →
       run (fuel + 2) (C9loadConstVm i consts #[]) =
         .ok ⟨[⟨0, 2, 0⟩], #[v], [], mkOpHeap #[] #[] [.loadConst i] consts, []⟩) := by
  refine ⟨?_, ?_, fun _ _ => rfl, ?_⟩
  · intro n st h0 h255
    simp only [Compiler.constant]
    rw [if_pos h255, Int.emod_eq_of_lt h0 (by omega)]
  · intro n st st' hgt h
    simp only [Compiler.constant] at h
    rw [if_neg (by omega)] at h
    simp only [Compiler.addConstant] at h
    by_cases hfull : st.constants.length > 255
    · rw [if_pos hfull] at h
      exact absurd h (by simp)
    · rw [if_neg hfull] at h
      cases hfind : st.constants.findIdx? (fun w => Compiler.constValueEq w (.integer n)) with
      | some idx =>
        rw [hfind] at h
        obtain ⟨x, hx, hpx⟩ := findIdx?_spec _ _ _ hfind
        have hxe : x = .integer n := constValueEq_integer x n hpx
        have hst : Compiler.emitCode st (.loadConst idx) = st' := Except.ok.inj h
        refine ⟨idx, ?_, ?_⟩
        · rw [← hst]; rfl
        · rw [← hst]
          show st.constants[idx]? = some (.integer n)
          rw [hx, hxe]
      | none =>
        rw [hfind] at h
        have hst : Compiler.emitCode { st with constants := st.constants ++ [.integer n] }
            (.loadConst st.constants.length) = st' := Except.ok.inj h
        refine ⟨st.constants.length, ?_, ?_⟩
        · rw [← hst]; rfl
        · rw [← hst]
          show (st.constants ++ [.integer n])[st.constants.length]? = some (.integer n)
          exact List.getElem?_concat_length _ _
  · intro fuel i consts v h
    have step : run (fuel + 2) (C9loadConstVm i consts #[]) =
        (match consts[i]? with
         | none => .error (.panicked "index out of bounds")
         | some w =>
           run (fuel + 1)
             (VmState.pushV ⟨[⟨0, 1, 0⟩], #[], [], mkOpHeap #[] #[] [.loadConst i] consts, []⟩ w)) := rfl
    rw [step, h]
    rfl

/-- C9 witness: the literal 7 compiles to `LoadInt 7` and the literal
300 to `LoadConst 0` with `constants[0] = Integer 300`; executing the
two opcodes pushes `Integer 7` resp. `Integer 300`. -/
theorem C9_literal_integer_compilation_witness :
    ((0 : Int) ≤ 7 ∧ (7 : Int) ≤ 255 ∧
     Compiler.constant C6st (.integer 7) = .ok (Compiler.emitCode C6st (.loadInt 7))) ∧
    ((255 : Int) < 300 ∧ Compiler.constant C6st (.integer 300) = .ok C9stA ∧
     ∃ i, C9stA.code = C6st.code ++ [.loadConst i] ∧
       C9stA.constants[i]? = some (.integer 300)) ∧
    run 2 (C9loadIntVm 7 #[]) =
      .ok ⟨[⟨0, 2, 0⟩], #[.integer 7], [], mkOpHeap #[] #[] [.loadInt 7] [], []⟩ ∧
    ([Value.integer 300][0]? = some (.integer 300) ∧
     run 2 (C9loadConstVm 0 [.integer 300] #[]) =
       .ok ⟨[⟨0, 2, 0⟩], #[.integer 300], [], mkOpHeap #[] #[] [.loadConst 0] [.integer 300], []⟩) :=
  ⟨⟨by decide, by decide, C9_literal_integer_compilation.1 7 C6st (by decide) (by decide)⟩,
   ⟨by decide, rfl, C9_literal_integer_compilation.2.1 300 C6st C9stA (by decide) rfl⟩,
   C9_literal_integer_compilation.2.2.1 0 7,
   ⟨rfl, C9_literal_integer_compilation.2.2.2 0 0 [.integer 300] (.integer 300) rfl⟩⟩

/-- C10: `CmpEq` on `Integer i` and `Number x` pushes `false` for every
`i` and `x` (equality never promotes across the tag — `PartialEq` falls
through to the discriminant comparison), while the ordering opcodes
promote the integer with `as f64`: on `Integer i` and the float of equal
numeric value both `CmpLEq` and `CmpGEq` push `true`. -/
theorem C10_mixed_numeric_comparison :
    (∀ (fuel : Nat) (i : Int) (x : F64),
       run (fuel + 2) (C10vm .cmpEq i x #[]) =
         .ok ⟨[⟨0, 2, 0⟩], #[.bool false], [], mkOpHeap #[] #[] [.cmpEq] [], []⟩) ∧
    (∀ (fuel : Nat) (i : Int),
       run (fuel + 2) (C10vm .cmpLEq i (.finite i) #[]) =
         .ok ⟨[⟨0, 2, 0⟩], #[.bool true], [], mkOpHeap #[] #[] [.cmpLEq] [], []⟩) ∧
    (∀ (fuel : Nat) (i : Int),
       run (fuel + 2) (C10vm .cmpGEq i (.finite i) #[]) =
         .ok ⟨[⟨0, 2, 0⟩], #[.bool true], [], mkOpHeap #[] #[] [.cmpGEq] [], []⟩) := by
  refine ⟨fun _ _ _ => rfl, ?_, ?_⟩
  · intro fuel i
    have hcmp : compare ((i : ℚ)) ((i : ℚ)) = Ordering.eq := compare_eq_iff_eq.mpr rfl
    have hle : valueLe (.integer i) (.number (.finite i)) = true := by
      simp [valueLe, valueCmp, F64.cmp, F64.ofInt, hcmp]
    rw [show run (fuel + 2) (C10vm .cmpLEq i (.finite i) #[]) =
        .ok ⟨[⟨0, 2, 0⟩], #[.bool (valueLe (.integer i) (.number (.finite i)))], [],
          mkOpHeap #[] #[] [.cmpLEq] [], []⟩ from rfl, hle]
  · intro fuel i
    have hcmp : compare ((i : ℚ)) ((i : ℚ)) = Ordering.eq := compare_eq_iff_eq.mpr rfl
    have hge : valueGe (.integer i) (.number (.finite i)) = true := by
      simp [valueGe, valueCmp, F64.cmp, F64.ofInt, hcmp]
    rw [show run (fuel + 2) (C10vm .cmpGEq i (.finite i) #[]) =
        .ok ⟨[⟨0, 2, 0⟩], #[.bool (valueGe (.integer i) (.number (.finite i)))], [],
          mkOpHeap #[] #[] [.cmpGEq] [], []⟩ from rfl, hge]

end FocusLang
